import Mathlib

/-!
Verification development for the trx-javascript tractography decoders
(readTCK, readTRK, readTRX, readTT, readVTK) and the minimal ZIP archive
reader they depend on.  The JavaScript source is shallowly embedded:

* byte buffers are `List Nat` (each element a byte value 0..255);
* DataView reads that can throw a JS RangeError are `Option`-valued and
  surface as the error `Err.rangeError`;
* IEEE-754 float32/float64 values are decoded exactly into the type `JF`
  (rationals plus NaN and signed infinities).  Arithmetic on finite values
  is modelled exactly over the rationals; this coincides with the
  JavaScript double arithmetic on every input used in the theorems below,
  all of which perform only exactly-representable operations;
* JavaScript typed arrays are `List`s of fixed length: out-of-range writes
  are silently dropped (as in JS), `slice` clamps (List.take);
* JavaScript strings are kept as their byte sequences; TextDecoder is the
  identity on bytes.  All string tests performed by the source use ASCII
  patterns, for which byte-level search is equivalent to search in the
  decoded string.
-/

namespace TrxJs

/-- JavaScript float value: NaN, signed infinity, or an exact finite value.
The distinction between positive and negative zero is not tracked; no code
path modelled here branches on the sign of zero. -/
inductive JF where
  | nan : JF
  | inf : Bool → JF
  | fin : ℚ → JF
deriving DecidableEq, Repr

namespace JF

/-- The isFinite test of JavaScript. -/
def isFinite : JF → Bool
  | .fin _ => true
  | _ => false

/-- The isNaN test of JavaScript. -/
def isNaN : JF → Bool
  | .nan => true
  | _ => false

/-- Addition as performed by JavaScript on decoded values.  On finite values
it is exact rational addition (JS computes in float64; exact for every
operation appearing in the concrete theorems below). -/
def add : JF → JF → JF
  | .nan, _ => .nan
  | _, .nan => .nan
  | .inf s, .inf t => if s = t then .inf s else .nan
  | .inf s, .fin _ => .inf s
  | .fin _, .inf s => .inf s
  | .fin a, .fin b => .fin (a + b)

/-- Multiplication as performed by JavaScript on decoded values. -/
def mul : JF → JF → JF
  | .nan, _ => .nan
  | _, .nan => .nan
  | .inf s, .inf t => .inf (s != t)
  | .inf s, .fin b => if b = 0 then .nan else .inf (s != decide (0 < b))
  | .fin b, .inf s => if b = 0 then .nan else .inf (s != decide (0 < b))
  | .fin a, .fin b => .fin (a * b)

/-- Division as performed by JavaScript on decoded values (used for the
reciprocal voxel sizes of readTRK and the by-32 scaling of readTT). -/
def div : JF → JF → JF
  | .nan, _ => .nan
  | _, .nan => .nan
  | .inf _, .inf _ => .nan
  | .inf s, .fin b => .inf (s != decide (0 ≤ b))
  | .fin _, .inf _ => .fin 0
  | .fin a, .fin b =>
      if b = 0 then (if a = 0 then .nan else .inf (decide (a < 0))) else .fin (a / b)

end JF

/-- Decode a 32-bit pattern as an IEEE-754 single-precision value. -/
def decodeF32 (w : Nat) : JF :=
  let b : Nat := w % 2 ^ 32
  let s : Nat := b / 2 ^ 31
  let e : Nat := b / 2 ^ 23 % 2 ^ 8
  let m : Nat := b % 2 ^ 23
  if e = 255 then (if m = 0 then .inf (s = 1) else .nan)
  else
    let mag : ℚ :=
      if e = 0 then (m : ℚ) / ((2 : ℚ) ^ 149)
      else if 150 ≤ e then ((2 ^ 23 + m : ℕ) : ℚ) * (2 : ℚ) ^ (e - 150)
      else ((2 ^ 23 + m : ℕ) : ℚ) / ((2 : ℚ) ^ (150 - e))
    .fin (if s = 1 then -mag else mag)

/-- Decode a 64-bit pattern as an IEEE-754 double-precision value. -/
def decodeF64 (w : Nat) : JF :=
  let b : Nat := w % 2 ^ 64
  let s : Nat := b / 2 ^ 63
  let e : Nat := b / 2 ^ 52 % 2 ^ 11
  let m : Nat := b % 2 ^ 52
  if e = 2047 then (if m = 0 then .inf (s = 1) else .nan)
  else
    let mag : ℚ :=
      if e = 0 then (m : ℚ) / ((2 : ℚ) ^ 1074)
      else if 1075 ≤ e then ((2 ^ 52 + m : ℕ) : ℚ) * (2 : ℚ) ^ (e - 1075)
      else ((2 ^ 52 + m : ℕ) : ℚ) / ((2 : ℚ) ^ (1075 - e))
    .fin (if s = 1 then -mag else mag)

/-- Byte of a buffer, or none when out of range. -/
def byteAt (b : List Nat) (i : Nat) : Option Nat := b.get? i

/-- Byte of a buffer with default 0; used only at positions already known to
be in range. -/
def byteD (b : List Nat) (i : Nat) : Nat := (b.get? i).getD 0

/-- DataView getUint16 little-endian: throws (none) when out of range. -/
def readU16LE (b : List Nat) (i : Nat) : Option Nat :=
  match byteAt b i, byteAt b (i + 1) with
  | some x0, some x1 => some (x0 + x1 * 256)
  | _, _ => none

/-- DataView getUint32 little-endian: throws (none) when out of range. -/
def readU32LE (b : List Nat) (i : Nat) : Option Nat :=
  match byteAt b i, byteAt b (i + 1), byteAt b (i + 2), byteAt b (i + 3) with
  | some x0, some x1, some x2, some x3 =>
      some (x0 + x1 * 256 + x2 * 65536 + x3 * 16777216)
  | _, _, _, _ => none

/-- DataView getBigUint64 little-endian, converted by Number(); values
below 2^53 convert exactly. -/
def readU64LE (b : List Nat) (i : Nat) : Option Nat :=
  match readU32LE b i, readU32LE b (i + 4) with
  | some lo, some hi => some (lo + hi * 4294967296)
  | _, _ => none

/-- Interpret an unsigned w-bit value as two's-complement signed. -/
def toSigned (w : Nat) (v : Nat) : Int :=
  if v < 2 ^ (w - 1) then (v : Int) else (v : Int) - 2 ^ w

/-- DataView getInt32 little-endian. -/
def readI32LE (b : List Nat) (i : Nat) : Option Int :=
  (readU32LE b i).map (toSigned 32)

/-- DataView getInt16 little-endian. -/
def readI16LE (b : List Nat) (i : Nat) : Option Int :=
  (readU16LE b i).map (toSigned 16)

/-- DataView getUint32 big-endian. -/
def readU32BE (b : List Nat) (i : Nat) : Option Nat :=
  match byteAt b i, byteAt b (i + 1), byteAt b (i + 2), byteAt b (i + 3) with
  | some x0, some x1, some x2, some x3 =>
      some (x3 + x2 * 256 + x1 * 65536 + x0 * 16777216)
  | _, _, _, _ => none

/-- DataView getInt32 big-endian. -/
def readI32BE (b : List Nat) (i : Nat) : Option Int :=
  (readU32BE b i).map (toSigned 32)

/-- DataView getFloat32 little-endian. -/
def readF32LE (b : List Nat) (i : Nat) : Option JF :=
  (readU32LE b i).map decodeF32

/-- Unchecked little-endian uint32 (used only under guards that already
guarantee the read is in range). -/
def u32D (b : List Nat) (i : Nat) : Nat :=
  byteD b i + byteD b (i + 1) * 256 + byteD b (i + 2) * 65536 + byteD b (i + 3) * 16777216

/-- Unchecked little-endian float32 (used only under in-range guards). -/
def f32D (b : List Nat) (i : Nat) : JF := decodeF32 (u32D b i)

/-- JavaScript number restricted to the values arising from parseInt:
either NaN or an integer. -/
inductive JSNum where
  | nan : JSNum
  | int : Int → JSNum
deriving DecidableEq, Repr

/-- ASCII bytes of a string literal (all patterns used by the source are
ASCII). -/
def asc (s : String) : List Nat := s.data.map (fun c => c.toNat)

/-- ASCII lower-casing of a byte, as String.toLowerCase acts on ASCII. -/
def lowerByte (c : Nat) : Nat := if 65 ≤ c ∧ c ≤ 90 then c + 32 else c

/-- Tests whether pat is a leading segment of s (String.startsWith). -/
def listStartsWith : List Nat → List Nat → Bool
  | [], _ => true
  | _ :: _, [] => false
  | p :: ps, c :: cs => p = c && listStartsWith ps cs

/-- Tests whether pat is a trailing segment of s (String.endsWith). -/
def listEndsWith (pat s : List Nat) : Bool :=
  listStartsWith pat.reverse s.reverse

/-- Tests whether pat occurs inside s (String.includes). -/
def hasSub (pat : List Nat) : List Nat → Bool
  | [] => pat.isEmpty
  | c :: cs => listStartsWith pat (c :: cs) || hasSub pat cs

/-- Number of leading elements satisfying p. -/
def countWhile (p : Nat → Bool) : List Nat → Nat
  | [] => 0
  | c :: cs => if p c then countWhile p cs + 1 else 0

/-- String.split on a single separator byte, keeping empty pieces, as in
JavaScript. -/
def splitByte (sep : Nat) : List Nat → List (List Nat)
  | [] => [[]]
  | c :: cs =>
    let r := splitByte sep cs
    if c = sep then [] :: r else (c :: r.headD []) :: r.tail

/-- ASCII whitespace (the inputs considered never contain non-ASCII
whitespace). -/
def isWs (c : Nat) : Bool := c = 32 || c = 9 || c = 10 || c = 11 || c = 12 || c = 13

mutual

/-- String.split on runs of whitespace, token-accumulation state. -/
def splitWsTok (cur : List Nat) : List Nat → List (List Nat)
  | [] => [cur.reverse]
  | c :: cs => if isWs c then cur.reverse :: splitWsRun cs else splitWsTok (c :: cur) cs

/-- String.split on runs of whitespace, inside-a-run state. -/
def splitWsRun : List Nat → List (List Nat)
  | [] => [[]]
  | c :: cs => if isWs c then splitWsRun cs else splitWsTok [c] cs

end

/-- String.split on the regular expression of one-or-more whitespace. -/
def splitWs (l : List Nat) : List (List Nat) := splitWsTok [] l

/-- String.trim restricted to ASCII whitespace. -/
def trimAsc (l : List Nat) : List Nat :=
  ((l.dropWhile isWs).reverse.dropWhile isWs).reverse

/-- Decimal digit test. -/
def isDigit (c : Nat) : Bool := 48 ≤ c && c ≤ 57

/-- Hexadecimal digit value, if any. -/
def hexVal (c : Nat) : Option Nat :=
  if 48 ≤ c ∧ c ≤ 57 then some (c - 48)
  else if 97 ≤ c ∧ c ≤ 102 then some (c - 87)
  else if 65 ≤ c ∧ c ≤ 70 then some (c - 55)
  else none

/-- JavaScript parseInt with no radix argument: skip leading whitespace,
optional sign, then either 0x-prefixed hexadecimal or decimal digits; NaN
when no digit follows. -/
def parseIntJS (s : List Nat) : JSNum :=
  let s := s.dropWhile isWs
  let (neg, s) : Bool × List Nat :=
    match s with
    | 43 :: r => (false, r)
    | 45 :: r => (true, r)
    | r => (false, r)
  let (digits, base) : List Nat × Nat :=
    match s with
    | 48 :: 120 :: r => ((r.takeWhile (fun c => (hexVal c).isSome)).filterMap hexVal, 16)
    | 48 :: 88 :: r => ((r.takeWhile (fun c => (hexVal c).isSome)).filterMap hexVal, 16)
    | r => ((r.takeWhile isDigit).map (fun c => c - 48), 10)
  if digits.isEmpty then .nan
  else
    let v : Nat := digits.foldl (fun a d => a * base + d) 0
    .int (if neg then -(v : Int) else (v : Int))

/-- Write into a JavaScript typed array: out-of-range indices are silently
ignored, stored uint32 values are reduced modulo 2^32. -/
def setU32 (l : List Nat) (i : Nat) (v : Int) : List Nat :=
  l.set i (((v % 4294967296 + 4294967296) % 4294967296).toNat)

/-- Write a float into a JavaScript Float32Array (out-of-range ignored). -/
def setF (l : List JF) (i : Nat) (v : JF) : List JF := l.set i v

/-- Error conditions of the embedded decoders.  rangeError stands for the
JavaScript RangeError raised by DataView accesses outside the buffer and by
invalid TypedArray constructions; it is not a typed decoder error.  The
externalGz constructors mark the points where control would pass to the
external decompression collaborator, which is outside the modelled core. -/
inductive Err where
  | rangeError : Err
  | externalGz : Err
  | tckTooSmall : Err
  | tckBadSig : Err
  | tckNoOffset : Err
  | trkZstd : Err
  | trkBad : Err
  | trkEmpty : Err
  | trxMissing : Err
  | trxOverflow : Err
  | zipMethod : Err
  | zip64Small : Err
  | zip64Missing : Err
  | vtkTooSmall : Err
  | vtkBadSig : Err
  | vtkNotBinary : Err
  | vtkNotPolydata : Err
  | vtkBadPoints : Err
  | vtkPointsPastEnd : Err
  | vtkNotLines : Err
  | vtkEofCount : Err
  | vtkEofPoints : Err
  | vtkIndexOOB : Err
  | matTooSmall : Err
  | matImaginary : Err
  | matRowsCols : Err
  | matDataType : Err
  | matBigEndian : Err
  | ttNoTrans : Err
  | ttNoVoxel : Err
  | ttNoTrack : Err
deriving DecidableEq, Repr

/-- The universal output shape: flat vertex floats plus fence-post offsets. -/
structure Tract where
  pts : List JF
  offsetPt0 : List Nat
deriving DecidableEq, Repr

/-- Decidable equality on Except values, for evaluating the decoders on
concrete buffers inside proofs. -/
instance instDecEqExcept {ε α : Type} [DecidableEq ε] [DecidableEq α] :
    DecidableEq (Except ε α) := fun a b =>
  match a, b with
  | .error e, .error f =>
      if h : e = f then isTrue (h ▸ rfl) else isFalse (fun he => h (Except.error.inj he))
  | .ok x, .ok y =>
      if h : x = y then isTrue (h ▸ rfl) else isFalse (fun he => h (Except.ok.inj he))
  | .error _, .ok _ => isFalse (fun h => Except.noConfusion h)
  | .ok _, .error _ => isFalse (fun h => Except.noConfusion h)

end TrxJs

namespace TrxJs

/-! ## readTCK (mrtrix tracks) -/

/-- The readStr helper of readTCK: skip blank lines, read bytes up to the
next newline, advance past it.  Returns the line's bytes and the new
cursor. -/
def readStrTCK (b : List Nat) (pos : Nat) : List Nat × Nat :=
  let n1 : Nat := countWhile (fun c => c = 10) (b.drop pos)
  let p1 : Nat := pos + n1
  let n2 : Nat := countWhile (fun c => decide (c ≠ 10)) (b.drop p1)
  ((b.drop p1).take n2, p1 + n2 + 1)

/-- The header loop of readTCK: read lines until one contains END (or the
cursor leaves the buffer); every line starting with file: (lower-cased)
re-assigns the offset to parseInt of its last space-delimited token.  Fuel
exceeds the iteration count because the cursor strictly increases. -/
def tckHeaderLoop (b : List Nat) : Nat → Nat → List Nat → JSNum → JSNum
  | 0, _, _, off => off
  | fuel + 1, pos, line, off =>
    if pos < b.length ∧ hasSub (asc "END") line = false then
      let r := readStrTCK b pos
      let off2 := if listStartsWith (asc "file:") (r.1.map lowerByte) then
          parseIntJS ((splitByte 32 r.1).getLastD [])
        else off
      tckHeaderLoop b fuel r.2 r.1 off2
    else off

/-- The state of the readTCK byte loop: vertex counters and the
over-provisioned output arrays. -/
structure TckSt where
  npt : Nat
  noffset : Nat
  npt3 : Nat
  offs : List Nat
  pts : List JF
deriving DecidableEq, Repr

/-- The byte loop of readTCK: while at least 13 bytes remain past the
cursor, read a little-endian float32 triplet; a triplet with non-finite
first component records the current vertex count as an offset entry and, if
that component is not NaN, terminates; a finite triplet is stored as a
vertex.  Fuel exceeds the iteration count because the cursor advances by 12
each round. -/
def tckBodyLoop (b : List Nat) : Nat → Nat → TckSt → TckSt
  | 0, _, st => st
  | fuel + 1, pos, st =>
    if pos + 12 < b.length then
      let ptx := f32D b pos
      let pty := f32D b (pos + 4)
      let ptz := f32D b (pos + 8)
      if ptx.isFinite = false then
        let st2 := { st with offs := setU32 st.offs st.noffset st.npt,
                             noffset := st.noffset + 1 }
        if ptx.isNaN = false then st2
        else tckBodyLoop b fuel (pos + 12) st2
      else
        tckBodyLoop b fuel (pos + 12)
          { st with pts := setF (setF (setF st.pts st.npt3 ptx) (st.npt3 + 1) pty)
                      (st.npt3 + 2) ptz,
                    npt3 := st.npt3 + 3, npt := st.npt + 1 }
    else st

/-- Embedding of readTCK (src/nvtract-loaders.ts).  A NaN parse of the
file: offset passes the less-than-20 test (NaN < 20 is false in JS) and
makes the byte-loop guard false, so empty arrays are returned. -/
def readTCK (b : List Nat) : Except Err Tract :=
  if b.length < 20 then .error .tckTooSmall else
  let r1 := readStrTCK b 0
  if hasSub (asc "mrtrix tracks") r1.1 = false then .error .tckBadSig else
  let off := tckHeaderLoop b (b.length + 1) r1.2 r1.1 (JSNum.int (-1))
  match off with
  | .nan =>
      .ok { pts := [], offsetPt0 := [] }
  | .int v =>
      if v < 20 then .error .tckNoOffset else
      let st0 : TckSt :=
        { npt := 0, noffset := 0, npt3 := 0,
          offs := setU32 (List.replicate (b.length / 16) 0) 0 0,
          pts := List.replicate (b.length / 4) (JF.fin 0) }
      let fin := tckBodyLoop b (b.length + 1) v.toNat st0
      .ok { pts := fin.pts.take fin.npt3, offsetPt0 := fin.offs.take fin.noffset }

/-- Little-endian byte encoding helpers used to build concrete test
buffers. -/
def u32le (v : Nat) : List Nat :=
  [v % 256, v / 256 % 256, v / 65536 % 256, v / 16777216 % 256]

/-- Little-endian 16-bit encoding. -/
def u16le (v : Nat) : List Nat := [v % 256, v / 256 % 256]

/-- Big-endian 32-bit encoding. -/
def u32be (v : Nat) : List Nat :=
  [v / 16777216 % 256, v / 65536 % 256, v / 256 % 256, v % 256]

/-- The float32 bit patterns used in the concrete buffers. -/
def f32one : List Nat := u32le 0x3F800000

/-- Bit pattern of 2.0f. -/
def f32two : List Nat := u32le 0x40000000

/-- Bit pattern of 3.0f. -/
def f32three : List Nat := u32le 0x40400000

/-- Bit pattern of a quiet NaN. -/
def f32nan : List Nat := u32le 0x7FC00000

/-- Bit pattern of positive infinity. -/
def f32inf : List Nat := u32le 0x7F800000

end TrxJs

namespace TrxJs

/-! ## Concrete TCK buffers and the claims C1, C7, C10 -/

/-- A TCK buffer: 40-byte header (signature, file: . 40, END, newline
padding), one finite triplet (1,2,3), one NaN triplet, one infinity
triplet, then one further finite triplet so that the infinity triplet is
inside the byte-loop guard.  A well-formed mrtrix track file with exactly
one streamline of one vertex. -/
def tckBufC1 : List Nat :=
  asc "mrtrix tracks\nfile: . 40\nEND\n" ++ List.replicate 11 10 ++
  f32one ++ f32two ++ f32three ++ f32nan ++ f32nan ++ f32nan ++
  f32inf ++ f32inf ++ f32inf ++ f32one ++ f32one ++ f32one

/-- The spec's own TCK test vector: 40-byte header, one finite triplet,
one NaN triplet, one infinity triplet, nothing after (76 bytes). -/
def tckBufC7 : List Nat :=
  asc "mrtrix tracks\nfile: . 40\nEND\n" ++ List.replicate 11 10 ++
  f32one ++ f32two ++ f32three ++ f32nan ++ f32nan ++ f32nan ++
  f32inf ++ f32inf ++ f32inf

/-- A TCK buffer whose file: line's last token is not numeric. -/
def tckBufC10 : List Nat := asc "mrtrix tracks\nfile: .\nEND\n"

/-- C1: the claimed fence-post invariant (offsetPt0 starts at 0, is
non-decreasing, ends at pts.length/3) fails for readTCK.  On a well-formed
one-streamline track file the decoder returns offsetPt0 = [1, 1]: the
initial entry 0 assigned before the loop is overwritten, because the first
boundary write also uses index noffset = 0.  (The analogous readTRX append
of the final offset is likewise lost: it writes one slot past the end of a
full typed array, which JavaScript silently drops.) -/
theorem readTCK_c1_offset_not_zero :
    readTCK tckBufC1 =
      .ok { pts := [JF.fin 1, JF.fin 2, JF.fin 3], offsetPt0 := [1, 1] } ∧
    (1 : Nat) ≠ 0 := by
  exact ⟨by with_unfolding_all decide, by decide⟩

/-- C7: on the spec's TCK test vector (header padded to 40 bytes, one
finite triplet, a NaN triplet, an infinity triplet) readTCK returns one
vertex but offsetPt0 = [1], which does not describe a single streamline
covering that vertex (the fence-post form would be [0, 1]): the leading 0
is overwritten by the NaN boundary write, and the final infinity triplet is
not even read because the loop guard pos + 12 < len excludes a triplet
ending exactly at the end of the buffer. -/
theorem readTCK_c7_vector :
    readTCK tckBufC7 =
      .ok { pts := [JF.fin 1, JF.fin 2, JF.fin 3], offsetPt0 := [1] } := by
  with_unfolding_all decide

/-- C10: a TCK header whose file: line ends in a non-numeric token makes
parseInt return NaN; NaN < 20 is false, so the missing-offset error branch
is bypassed, the byte loop never runs, and an empty Tractogram is
returned with no error. -/
theorem readTCK_c10_nan_offset :
    readTCK tckBufC10 = .ok { pts := [], offsetPt0 := [] } := by
  with_unfolding_all decide

end TrxJs

namespace TrxJs

/-! ## The Zip archive reader (src/nvutilities.ts) -/

/-- Unchecked little-endian uint16 (used only under in-range guards). -/
def u16D (b : List Nat) (i : Nat) : Nat := byteD b i + byteD b (i + 1) * 256

/-- Lift a DataView read into the error monad: out-of-range is the JS
RangeError. -/
def orRE {α : Type} : Option α → Except Err α
  | some v => .ok v
  | none => .error .rangeError

/-- The readString helper: length bytes via getUint8, RangeError past the
end. -/
def readBytes (b : List Nat) (off len : Nat) : Except Err (List Nat) :=
  if off + len ≤ b.length then .ok ((b.drop off).take len) else
  if len = 0 then .ok [] else .error .rangeError

/-- A local-file entry as built by Zip.readLocalFile, plus the startsAt
cursor assigned in Zip.read. -/
structure Entry where
  signature : List Nat
  version : Nat
  generalPurpose : Nat
  compressionMethod : Nat
  lastModifiedTime : Nat
  lastModifiedDate : Nat
  crc : Nat
  compressedSize : Nat
  uncompressedSize : Nat
  fileNameLength : Nat
  extraLength : Nat
  fileName : List Nat
  extra : List Nat
  startsAt : Nat
deriving DecidableEq, Repr

/-- A central-directory record as built by Zip.readCentralDirectory. -/
structure CDEntry where
  versionCreated : Nat
  versionNeeded : Nat
  fileNameLength : Nat
  extraLength : Nat
  fileCommentLength : Nat
  diskNumber : Nat
  internalAttributes : Nat
  externalAttributes : Nat
  cdOffset : Nat
  comments : List Nat
deriving DecidableEq, Repr

/-- An end-of-central-directory record (standard or ZIP64 form). -/
structure EOCD where
  numberOfDisks : Nat
  centralDirectoryStartDisk : Nat
  nCDRecordsDisk : Nat
  nCDRecords : Nat
  cdSize : Nat
  cdOffset : Nat
  commentLength : Nat
  comment : List Nat
deriving DecidableEq, Repr

/-- The ZIP64 extra-field scan of readLocalFile: walk the extra field
looking for tag 0x0001; a tag shorter than 16 bytes or a missing tag is
fatal; otherwise the true (uncompressed, compressed) sizes are the two
64-bit words.  Fuel exceeds the iteration count because the cursor
advances by at least 4 per round. -/
def zip64Scan (b : List Nat) (extraOffset extraLength : Nat) :
    Nat → Nat → Except Err (Nat × Nat)
  | 0, _ => .error .zip64Missing
  | fuel + 1, z =>
    if (z : Int) < (extraOffset : Int) + (extraLength : Int) - 4 then
      match readU16LE b z, readU16LE b (z + 2) with
      | some fieldSig, some fieldLength =>
        if fieldSig = 1 then
          if 16 ≤ fieldLength then
            match readU64LE b (z + 4), readU64LE b (z + 12) with
            | some us, some cs => .ok (us, cs)
            | _, _ => .error .rangeError
          else .error .zip64Small
        else zip64Scan b extraOffset extraLength fuel (z + 4 + fieldLength)
      | _, _ => .error .rangeError
    else .error .zip64Missing

/-- Embedding of Zip.readLocalFile: fixed-offset header reads, the ZIP64
sentinel substitution, then the entry record (startsAt is filled in by the
caller, as in the source). -/
def readLocalFile (b : List Nat) (offset : Nat) : Except Err Entry := do
  let cs0 ← orRE (readU32LE b (offset + 18))
  let us0 ← orRE (readU32LE b (offset + 22))
  let fnl ← orRE (readU16LE b (offset + 26))
  let extl ← orRE (readU16LE b (offset + 28))
  let extraOffset := offset + 30 + fnl
  let extra ← readBytes b extraOffset extl
  let (us, cs) ←
    if cs0 = 0xFFFFFFFF ∧ us0 = 0xFFFFFFFF then
      zip64Scan b extraOffset extl (extl + 1) extraOffset
    else .ok (us0, cs0)
  let sig ← readBytes b offset 4
  let version ← orRE (readU16LE b (offset + 4))
  let gp ← orRE (readU16LE b (offset + 6))
  let method ← orRE (readU16LE b (offset + 8))
  let mtime ← orRE (readU16LE b (offset + 10))
  let mdate ← orRE (readU16LE b (offset + 12))
  let crc ← orRE (readU32LE b (offset + 14))
  let name ← readBytes b (offset + 30) fnl
  .ok { signature := sig, version := version, generalPurpose := gp,
        compressionMethod := method, lastModifiedTime := mtime,
        lastModifiedDate := mdate, crc := crc, compressedSize := cs,
        uncompressedSize := us, fileNameLength := fnl, extraLength := extl,
        fileName := name, extra := extra, startsAt := 0 }

/-- One candidate test of the data-descriptor scan: descriptor signature at
d and the 16-bit value at d + 16 equal to 0x4B50. -/
def ddMatch (b : List Nat) (d : Nat) : Bool :=
  u32D b d = 0x08074b50 && u16D b (d + 16) = 0x4b50

/-- The data-descriptor scan of Zip.read: advance while at least 20 bytes
remain and the candidate test fails; on a hit skip the 4 signature bytes.
Returns the cursor from which the three descriptor fields are read. -/
def ddScanPos (b : List Nat) : Nat → Nat → Nat
  | 0, scanIndex => scanIndex
  | fuel + 1, scanIndex =>
    if scanIndex + 20 ≤ b.length then
      if ddMatch b scanIndex then scanIndex + 4
      else ddScanPos b fuel (scanIndex + 1)
    else scanIndex

/-- Processing of one local-file header in Zip.read: parse the header,
record the payload start; when general-purpose bit 3 is set and the
recorded compressed size is zero, run the descriptor scan and take CRC and
sizes from the three words at the scan cursor; otherwise skip the recorded
payload.  Returns the entry and the next cursor. -/
def processLocal (b : List Nat) (index : Nat) : Except Err (Entry × Nat) := do
  let e0 ← readLocalFile b index
  let hasDD := e0.generalPurpose / 8 % 2 = 1
  let startsAt := index + 30 + e0.fileNameLength + e0.extraLength
  if e0.compressedSize = 0 ∧ hasDD then
    let sI := ddScanPos b (b.length + 1) startsAt
    let crc ← orRE (readU32LE b sI)
    let cs ← orRE (readU32LE b (sI + 4))
    let us ← orRE (readU32LE b (sI + 8))
    .ok ({ e0 with crc := crc, compressedSize := cs, uncompressedSize := us,
                   startsAt := startsAt }, sI + 12)
  else
    .ok ({ e0 with startsAt := startsAt }, startsAt + e0.compressedSize)

/-- Embedding of Zip.readCentralDirectory. -/
def readCentralDirectory (b : List Nat) (offset : Nat) : Except Err CDEntry := do
  let vc ← orRE (readU16LE b (offset + 4))
  let vn ← orRE (readU16LE b (offset + 6))
  let fnl ← orRE (readU16LE b (offset + 28))
  let extl ← orRE (readU16LE b (offset + 30))
  let fcl ← orRE (readU16LE b (offset + 32))
  let disk ← orRE (readU16LE b (offset + 34))
  let ia ← orRE (readU16LE b (offset + 36))
  let ea ← orRE (readU32LE b (offset + 38))
  let off ← orRE (readU32LE b (offset + 42))
  let comments ← readBytes b (offset + 46) fcl
  .ok { versionCreated := vc, versionNeeded := vn, fileNameLength := fnl,
        extraLength := extl, fileCommentLength := fcl, diskNumber := disk,
        internalAttributes := ia, externalAttributes := ea, cdOffset := off,
        comments := comments }

/-- Embedding of Zip.readEndCentralDirectory. -/
def readEndCentralDirectory (b : List Nat) (offset : Nat) : Except Err EOCD := do
  let cl ← orRE (readU16LE b (offset + 20))
  let nd ← orRE (readU16LE b (offset + 4))
  let sd ← orRE (readU16LE b (offset + 6))
  let nrd ← orRE (readU16LE b (offset + 8))
  let nr ← orRE (readU16LE b (offset + 10))
  let sz ← orRE (readU32LE b (offset + 12))
  let off ← orRE (readU32LE b (offset + 16))
  let comment ← readBytes b (offset + 22) cl
  .ok { numberOfDisks := nd, centralDirectoryStartDisk := sd,
        nCDRecordsDisk := nrd, nCDRecords := nr, cdSize := sz, cdOffset := off,
        commentLength := cl, comment := comment }

/-- Embedding of Zip.readEndCentralDirectory64. -/
def readEndCentralDirectory64 (b : List Nat) (offset : Nat) : Except Err EOCD := do
  let cl ← orRE (readU64LE b offset)
  let nd ← orRE (readU32LE b (offset + 16))
  let sd ← orRE (readU32LE b (offset + 20))
  let nrd ← orRE (readU64LE b (offset + 24))
  let nr ← orRE (readU64LE b (offset + 32))
  let sz ← orRE (readU64LE b (offset + 40))
  let off ← orRE (readU64LE b (offset + 48))
  .ok { numberOfDisks := nd, centralDirectoryStartDisk := sd,
        nCDRecordsDisk := nrd, nCDRecords := nr, cdSize := sz, cdOffset := off,
        commentLength := cl, comment := [] }

/-- The final state of Zip.read: local entries, central-directory records,
the end record if one was reached, and the unrecognized signature (with its
index) that was logged with console.error when the scan stopped on one. -/
structure ZipResult where
  entries : List Entry
  centralDirectories : List CDEntry
  eocd : Option EOCD
  badSig : Option (Nat × Nat)
deriving DecidableEq, Repr

/-- The scan loop of Zip.read: read the 4-byte signature at the cursor and
dispatch; an unrecognized signature logs an error and breaks, returning
the entries collected so far.  Fuel exceeds the iteration count because the
cursor advances by at least 30 per round. -/
def zipLoop (b : List Nat) : Nat → Nat → List Entry → List CDEntry → Except Err ZipResult
  | 0, _, es, cds => .ok ⟨es, cds, none, none⟩
  | fuel + 1, index, es, cds =>
    if index < b.length then
      match readU32LE b index with
      | none => .error .rangeError
      | some sig =>
        if sig = 0x04034b50 then
          match processLocal b index with
          | .error e => .error e
          | .ok (entry, index2) => zipLoop b fuel index2 (es ++ [entry]) cds
        else if sig = 0x02014b50 then
          match readCentralDirectory b index with
          | .error e => .error e
          | .ok cd =>
              zipLoop b fuel
                (index + 46 + cd.fileNameLength + cd.extraLength + cd.fileCommentLength)
                es (cds ++ [cd])
        else if sig = 0x06054b50 then
          match readEndCentralDirectory b index with
          | .error e => .error e
          | .ok eo => .ok ⟨es, cds, some eo, none⟩
        else if sig = 0x06064b50 then
          match readEndCentralDirectory64 b index with
          | .error e => .error e
          | .ok eo => .ok ⟨es, cds, some eo, none⟩
        else
          .ok ⟨es, cds, none, some (sig, index)⟩
    else .ok ⟨es, cds, none, none⟩

/-- Embedding of Zip.read, run by the constructor. -/
def zipRead (b : List Nat) : Except Err ZipResult :=
  zipLoop b (b.length + 1) 0 [] []

/-- Embedding of Zip.extract: slice the recorded payload; method 0 is
returned as is, method 8 is handed to the external DecompressionStream
collaborator (outside the modelled core), anything else is fatal. -/
def zipExtract (b : List Nat) (e : Entry) : Except Err (List Nat) :=
  let sl := (b.drop e.startsAt).take e.compressedSize
  if e.compressionMethod = 0 then .ok sl
  else if e.compressionMethod = 8 then .error .externalGz
  else .error .zipMethod

end TrxJs

namespace TrxJs

/-! ## Claims C2 and C4: the archive reader's scan -/

/-- Bytes are some precisely when in range. -/
theorem byteAt_in_range {b : List Nat} {i : Nat} (h : i < b.length) :
    byteAt b i = some (byteD b i) := by
  unfold byteAt byteD
  cases hg : b.get? i with
  | none => exact absurd (List.get?_eq_none.mp hg) (by omega)
  | some v => rfl

/-- An in-range 32-bit read returns the unchecked value. -/
theorem readU32LE_in_range {b : List Nat} {i : Nat} (h : i + 4 ≤ b.length) :
    readU32LE b i = some (u32D b i) := by
  unfold readU32LE u32D
  rw [byteAt_in_range (by omega), byteAt_in_range (by omega),
    byteAt_in_range (by omega), byteAt_in_range (i := i + 3) (by omega)]

/-- The descriptor scan stops at the first matching candidate: if d is at
or after the scan start, fits in the buffer with its 20 bytes, matches the
signature-plus-PK test, and no earlier candidate at or after the start
matches, then the scan cursor ends up just past d's 4 signature bytes.
The fuel only needs to cover the distance to the end of the buffer. -/
theorem ddScanPos_first (b : List Nat) :
    ∀ fuel start d, b.length ≤ start + fuel → start ≤ d → d + 20 ≤ b.length →
      ddMatch b d = true →
      (∀ e, e < d → start ≤ e → ddMatch b e = false) →
      ddScanPos b fuel start = d + 4 := by
  intro fuel
  induction fuel with
  | zero => intro start d hf hsd hdb _ _; omega
  | succ n ih =>
    intro start d hf hsd hdb hm hmin
    unfold ddScanPos
    rw [if_pos (by omega)]
    rcases Nat.eq_or_lt_of_le hsd with heq | hlt
    · subst heq; rw [if_pos hm]
    · rw [if_neg (by rw [hmin start hlt (le_refl start)]; exact Bool.false_ne_true)]
      exact ih (start + 1) d (by omega) (by omega) hdb hm
        (fun e he hse => hmin e he (by omega))

/-- C4 (amended): when a local entry has general-purpose bit 3 set AND a
recorded compressed size of zero, Zip.read locates the payload's end by
scanning forward from the payload start for the first position d holding
the descriptor signature 0x08074B50 whose 16-bit field at d + 16 is
0x4B50, and takes the three 32-bit words at d + 4, d + 8, d + 12 as the
entry's CRC, compressed size and uncompressed size, resuming the scan at
d + 16.  (The claim as stated omits the compressed-size-zero condition;
see the counterexample.) -/
theorem processLocal_c4_descriptor_scan (b : List Nat) (idx : Nat) (e0 : Entry) (d : Nat)
    (h0 : readLocalFile b idx = .ok e0)
    (hbit : e0.generalPurpose / 8 % 2 = 1)
    (hcs : e0.compressedSize = 0)
    (hd : idx + 30 + e0.fileNameLength + e0.extraLength ≤ d)
    (h20 : d + 20 ≤ b.length)
    (hm : ddMatch b d = true)
    (hmin : ∀ e, e < d → idx + 30 + e0.fileNameLength + e0.extraLength ≤ e →
      ddMatch b e = false) :
    processLocal b idx =
      .ok ({ e0 with crc := u32D b (d + 4), compressedSize := u32D b (d + 8),
                     uncompressedSize := u32D b (d + 12),
                     startsAt := idx + 30 + e0.fileNameLength + e0.extraLength },
           d + 16) := by
  unfold processLocal
  rw [h0]
  have hscan : ddScanPos b (b.length + 1) (idx + 30 + e0.fileNameLength + e0.extraLength)
      = d + 4 :=
    ddScanPos_first b (b.length + 1) _ d (by omega) hd h20 hm hmin
  simp only [bind, Except.bind]
  rw [if_pos ⟨hcs, hbit⟩, hscan]
  rw [readU32LE_in_range (by omega), readU32LE_in_range (by omega),
    readU32LE_in_range (by omega)]
  rfl

end TrxJs

namespace TrxJs

/-- A one-entry archive whose local header has general-purpose bit 3 set
but a nonzero recorded compressed size (5): name a, stored payload of five
0x01 bytes, then a well-formed data descriptor declaring CRC 9, compressed
size 7, uncompressed size 5, then an end-of-central-directory record
(whose leading PK bytes also satisfy the descriptor's +16 check). -/
def zipBufC4 : List Nat :=
  [80, 75, 3, 4] ++ u16le 20 ++ u16le 8 ++ u16le 0 ++ u16le 0 ++ u16le 0 ++
  u32le 0 ++ u32le 5 ++ u32le 5 ++ u16le 1 ++ u16le 0 ++ [97] ++
  [1, 1, 1, 1, 1] ++
  [80, 75, 7, 8] ++ u32le 9 ++ u32le 7 ++ u32le 5 ++
  [80, 75, 5, 6] ++ List.replicate 18 0

/-- The same archive with the recorded sizes zeroed, the genuine streaming
layout: bit 3 set and sizes 0 in the local header. -/
def zipBufC4w : List Nat :=
  [80, 75, 3, 4] ++ u16le 20 ++ u16le 8 ++ u16le 0 ++ u16le 0 ++ u16le 0 ++
  u32le 0 ++ u32le 0 ++ u32le 0 ++ u16le 1 ++ u16le 0 ++ [97] ++
  [1, 1, 1, 1, 1] ++
  [80, 75, 7, 8] ++ u32le 9 ++ u32le 7 ++ u32le 5 ++
  [80, 75, 5, 6] ++ List.replicate 18 0

/-- C4 (counterexample): an entry whose general-purpose bit 3 is set but
whose recorded compressed size is 5 is NOT resolved through the
data-descriptor scan: the reader keeps the header's CRC 0 and sizes (5,5)
even though the first descriptor position after the payload start (index
36; no earlier candidate in 31..35 matches) carries the fields (9,7,5).
So the claim's universal statement over every bit-3 entry fails: the scan
only runs when the recorded compressed size is also zero. -/
theorem zipRead_c4_counterexample :
    (zipRead zipBufC4).toOption.map
        (fun r => r.entries.map fun e =>
          (e.generalPurpose / 8 % 2, e.crc, e.compressedSize, e.uncompressedSize)) =
      some [(1, 0, 5, 5)] ∧
    ddMatch zipBufC4 36 = true ∧
    ((List.range 5).all fun k => !(ddMatch zipBufC4 (31 + k))) = true ∧
    (u32D zipBufC4 40, u32D zipBufC4 44, u32D zipBufC4 48) = (9, 7, 5) ∧
    ((0, 5, 5) : Nat × Nat × Nat) ≠ (9, 7, 5) := by
  exact ⟨by decide, by decide, by decide, by decide, by decide⟩

/-- Witness for the amended C4 theorem: on the genuine streaming layout
(bit 3 set, recorded size 0) the entry's CRC and sizes are taken from the
three words after the descriptor signature found at index 36, and the scan
resumes past them at index 52. -/
theorem processLocal_c4_witness :
    processLocal zipBufC4w 0 =
      .ok ({ signature := [80, 75, 3, 4], version := 20, generalPurpose := 8,
             compressionMethod := 0, lastModifiedTime := 0, lastModifiedDate := 0,
             crc := 9, compressedSize := 7, uncompressedSize := 5,
             fileNameLength := 1, extraLength := 0, fileName := [97], extra := [],
             startsAt := 31 }, 52) := by
  have h := processLocal_c4_descriptor_scan zipBufC4w 0
    { signature := [80, 75, 3, 4], version := 20, generalPurpose := 8,
      compressionMethod := 0, lastModifiedTime := 0, lastModifiedDate := 0,
      crc := 0, compressedSize := 0, uncompressedSize := 0,
      fileNameLength := 1, extraLength := 0, fileName := [97], extra := [],
      startsAt := 0 } 36 (by decide) (by decide) (by decide) (by decide)
    (by decide) (by decide) (by decide)
  exact h

/-- C2 (counterexample): a 4-byte buffer whose leading signature
0x04030201 is none of the four recognized ones makes Zip.read return
normally with the entries collected so far (none) and a logged bad
signature; no corrupt-archive error reaches the caller. -/
theorem zipRead_c2_counterexample :
    zipRead [1, 2, 3, 4] =
      .ok { entries := [], centralDirectories := [], eocd := none,
            badSig := some (0x04030201, 0) } := by
  decide

/-- C2 (amended): when the sequential scan meets a 4-byte value at the
cursor that is none of the recognized signatures, it logs the unexpected
signature (recorded in badSig) and stops, returning the entries found so
far — it does not raise an error to the caller. -/
theorem zipLoop_c2_unknown_sig_stops (b : List Nat) (fuel idx : Nat)
    (es : List Entry) (cds : List CDEntry) (sig : Nat)
    (h1 : idx < b.length) (h2 : readU32LE b idx = some sig)
    (h3 : sig ≠ 0x04034b50) (h4 : sig ≠ 0x02014b50)
    (h5 : sig ≠ 0x06054b50) (h6 : sig ≠ 0x06064b50) :
    zipLoop b (fuel + 1) idx es cds = .ok ⟨es, cds, none, some (sig, idx)⟩ := by
  unfold zipLoop
  rw [if_pos h1, h2]
  simp only [if_neg h3, if_neg h4, if_neg h5, if_neg h6]

/-- Witness for the amended C2 theorem at the concrete 4-byte buffer. -/
theorem zipLoop_c2_witness :
    zipLoop [1, 2, 3, 4] 1 0 [] [] =
      .ok { entries := [], centralDirectories := [], eocd := none,
            badSig := some (0x04030201, 0) } :=
  zipLoop_c2_unknown_sig_stops [1, 2, 3, 4] 0 0 [] [] 0x04030201
    (by decide) (by decide) (by decide) (by decide) (by decide) (by decide)

end TrxJs

namespace TrxJs

/-! ## readTRX (TRX zip container) -/

/-- A named attribute array (ValuesArray element). -/
structure AttrArr where
  id : List Nat
  vals : List JF
deriving DecidableEq, Repr

/-- The output of readTRX.  The header is the raw bytes of header.json
(its JSON parse is an external concern); none when no header entry was
seen (the source leaves the initial empty array). -/
structure TRXOut where
  pts : List JF
  offsetPt0 : List Nat
  dpg : List AttrArr
  dps : List AttrArr
  dpv : List AttrArr
  header : Option (List Nat)
deriving DecidableEq, Repr

/-- The decodeFloat16 helper defined inside readTRX (the 65536-entry
lookup table computes exactly this function).  6.103515625e-5 is the
exact double 2^-14. -/
def decodeFloat16 (h : Nat) : JF :=
  let h := h % 65536
  let exponent := h / 1024 % 32
  let fraction := h % 1024
  let neg : Bool := h / 32768 = 1
  if exponent = 0 then
    let v : ℚ := (6103515625 : ℚ) / 10 ^ 14 * ((fraction : ℚ) / 1024)
    .fin (if neg then -v else v)
  else if exponent = 31 then
    (if fraction = 0 then .inf neg else .nan)
  else
    let p : ℚ := if 15 ≤ exponent then (2 : ℚ) ^ (exponent - 15)
                 else 1 / (2 : ℚ) ^ (15 - exponent)
    let v : ℚ := p * (1 + (fraction : ℚ) / 1024)
    .fin (if neg then -v else v)

/-- Position of the leading binary digit of a half mantissa (1..1023);
avoids Nat.log2, which is not kernel-reducible. -/
def msbBelow10 (m : Nat) : Nat :=
  ((List.range 10).filter (fun k => 2 ^ k ≤ m)).length - 1

/-- The float32 bit pattern that the JavaScript lookup table stores for a
half-precision bit pattern (Float32Array backing store of the converted
values).  NaN results are stored canonically. -/
def f16BitsToF32Bits (h : Nat) : Nat :=
  let h := h % 65536
  let s := h / 32768
  let e := h / 1024 % 32
  let m := h % 1024
  if e = 31 then (if m = 0 then s * 2 ^ 31 + 255 * 2 ^ 23 else 0x7FC00000)
  else if e = 0 then
    (if m = 0 then s * 2 ^ 31
     else
       let t := msbBelow10 m
       s * 2 ^ 31 + (103 + t) * 2 ^ 23 + (m - 2 ^ t) * 2 ^ (23 - t))
  else s * 2 ^ 31 + (e + 112) * 2 ^ 23 + m * 2 ^ 13

/-- Unchecked little-endian uint64 value (Number conversion exact below
2^53; only used for float64 bit patterns and small sizes here). -/
def u64D (b : List Nat) (i : Nat) : Nat := u32D b i + u32D b (i + 4) * 4294967296

/-- The per-datatype array decode of readTRX: given the entry's file name
and extracted bytes, produce the element values, the bytes backing the
resulting typed array (vals.buffer), and the uint64 overflow flag; none
when no datatype suffix matches (the entry is ignored); RangeError when a
typed-array view over a misaligned buffer is constructed. -/
def trxDecodeVals (fname data : List Nat) :
    Except Err (Option (List JF × List Nat × Bool)) :=
  if listEndsWith (asc ".uint64") fname || listEndsWith (asc ".int64") fname then
    if data.length % 4 = 0 then
      let nval := data.length / 8
      let lows := (List.range nval).map (fun i => u32D data (8 * i))
      let over := (List.range nval).any (fun i => decide (u32D data (8 * i + 4) ≠ 0))
      .ok (some (lows.map (fun v => JF.fin v), lows.flatMap u32le, over))
    else .error .rangeError
  else if listEndsWith (asc ".uint32") fname then
    if data.length % 4 = 0 then
      .ok (some ((List.range (data.length / 4)).map (fun i => JF.fin (u32D data (4 * i))),
        data, false))
    else .error .rangeError
  else if listEndsWith (asc ".uint16") fname then
    if data.length % 2 = 0 then
      .ok (some ((List.range (data.length / 2)).map (fun i => JF.fin (u16D data (2 * i))),
        data, false))
    else .error .rangeError
  else if listEndsWith (asc ".uint8") fname then
    .ok (some (data.map (fun v => JF.fin v), data, false))
  else if listEndsWith (asc ".int32") fname then
    if data.length % 4 = 0 then
      .ok (some ((List.range (data.length / 4)).map
        (fun i => JF.fin (toSigned 32 (u32D data (4 * i)))), data, false))
    else .error .rangeError
  else if listEndsWith (asc ".int16") fname then
    if data.length % 2 = 0 then
      .ok (some ((List.range (data.length / 2)).map
        (fun i => JF.fin (toSigned 16 (u16D data (2 * i)))), data, false))
    else .error .rangeError
  else if listEndsWith (asc ".int8") fname then
    .ok (some (data.map (fun v => JF.fin (toSigned 8 v)), data, false))
  else if listEndsWith (asc ".float64") fname then
    if data.length % 8 = 0 then
      .ok (some ((List.range (data.length / 8)).map (fun i => decodeF64 (u64D data (8 * i))),
        data, false))
    else .error .rangeError
  else if listEndsWith (asc ".float32") fname then
    if data.length % 4 = 0 then
      .ok (some ((List.range (data.length / 4)).map (fun i => f32D data (4 * i)),
        data, false))
    else .error .rangeError
  else if listEndsWith (asc ".float16") fname then
    if data.length % 2 = 0 then
      let u16s := (List.range (data.length / 2)).map (fun i => u16D data (2 * i))
      .ok (some (u16s.map decodeFloat16, u16s.flatMap (fun v => u32le (f16BitsToF32Bits v)),
        false))
    else .error .rangeError
  else .ok none

/-- The running state of the readTRX entry loop. -/
structure TrxSt where
  noff : Nat
  npt : Nat
  ptsVals : List JF
  offVals : List Nat
  dpg : List AttrArr
  dps : List AttrArr
  dpv : List AttrArr
  header : Option (List Nat)
  overflow : Bool
deriving DecidableEq, Repr

/-- Processing of one archive entry in readTRX: skip empty and
dot-prefixed entries, classify by the parent path component and the
datatype suffix, and route the decoded array to dpg/dpv/dps, the offsets
slot, or the positions slot. -/
def trxEntry (b : List Nat) (st : TrxSt) (e : Entry) : Except Err TrxSt := do
  if e.uncompressedSize = 0 then .ok st else
  let parts := splitByte 47 e.fileName
  let fname := parts.getLastD []
  if listStartsWith (asc ".") fname then .ok st else
  let pname := (parts.drop (parts.length - 2)).headD []
  let tag := (splitByte 46 fname).headD []
  let data ← zipExtract b e
  if hasSub (asc "header.json") fname then .ok { st with header := some data } else
  match ← trxDecodeVals fname data with
  | none => .ok st
  | some (vals, bytes, over) =>
    let st := { st with overflow := st.overflow || over }
    let nval := vals.length
    if hasSub (asc "groups") pname then
      .ok { st with dpg := st.dpg ++ [⟨tag, vals⟩] }
    else if hasSub (asc "dpv") pname then
      .ok { st with dpv := st.dpv ++ [⟨tag, vals⟩] }
    else if hasSub (asc "dps") pname then
      .ok { st with dps := st.dps ++ [⟨tag, vals⟩] }
    else do
      let st ←
        if listStartsWith (asc "offsets.") fname then
          if bytes.length % 4 = 0 then
            .ok { st with noff := nval,
                          offVals := (List.range (bytes.length / 4)).map
                            (fun i => u32D bytes (4 * i)) }
          else .error Err.rangeError
        else .ok st
      if listStartsWith (asc "positions.3.") fname then
        if bytes.length % 4 = 0 then
          .ok { st with npt := nval,
                        ptsVals := (List.range (bytes.length / 4)).map
                          (fun i => f32D bytes (4 * i)) }
        else .error Err.rangeError
      else .ok st

/-- Embedding of readTRX: open the archive, fold over its entries, fail
when offsets or positions are missing or a 64-bit value overflowed, and
attempt the final fence-post write offsetPt0[noff] = npt/3 — which lands
one slot past the end of the full typed array and is silently dropped. -/
def readTRX (b : List Nat) : Except Err TRXOut := do
  let z ← zipRead b
  let st ← z.entries.foldlM (trxEntry b)
    { noff := 0, npt := 0, ptsVals := [], offVals := [], dpg := [], dps := [],
      dpv := [], header := none, overflow := false }
  if st.noff = 0 ∨ st.npt = 0 then .error .trxMissing
  else if st.overflow then .error .trxOverflow
  else
    .ok { pts := st.ptsVals, offsetPt0 := setU32 st.offVals st.noff ((st.npt / 3 : Nat)),
          dpg := st.dpg, dps := st.dps, dpv := st.dpv, header := st.header }

end TrxJs

namespace TrxJs

/-! ## readTRK (TrackVis) -/

/-- Element access on a mat4 array (never out of range for the fixed
16-element matrices built below). -/
def el (l : List JF) (i : Nat) : JF := l.getD i JF.nan

/-- gl-matrix mat4.multiply on column-major arrays: the element at linear
position 4r + c of the product of a and b is
b[4r]·a[c] + b[4r+1]·a[4+c] + b[4r+2]·a[8+c] + b[4r+3]·a[12+c],
summed left-associatively as the source does. -/
def mat4mulGL (a bm : List JF) : List JF :=
  (List.range 16).map (fun n =>
    let r := n / 4
    let c := n % 4
    JF.add (JF.add (JF.add
      (JF.mul (el bm (4 * r)) (el a c))
      (JF.mul (el bm (4 * r + 1)) (el a (4 + c))))
      (JF.mul (el bm (4 * r + 2)) (el a (8 + c))))
      (JF.mul (el bm (4 * r + 3)) (el a (12 + c))))

/-- The gl-matrix identity matrix (mat4.identity / mat4.create). -/
def mat4id : List JF :=
  [.fin 1, .fin 0, .fin 0, .fin 0,
   .fin 0, .fin 1, .fin 0, .fin 0,
   .fin 0, .fin 0, .fin 1, .fin 0,
   .fin 0, .fin 0, .fin 0, .fin 1]

/-- Everything readTRK computes from the 1000-byte header before entering
the body loop. -/
structure TrkParams where
  voxToMM : List JF
  nsc : Nat
  nprop : Nat
  dpvIds : List (List Nat)
  dpsIds : List (List Nat)
  ntracks : Nat
  body : List Nat
  warned : Bool
deriving DecidableEq, Repr

/-- The 20-byte name slot of scalar/property i, cut at the first NUL and
trimmed, as the source does with TextDecoder/split/shift/trim. -/
def trkName (b : List Nat) (base i : Nat) : List Nat :=
  trimAsc (((b.drop (base + 20 * i)).take 20).takeWhile (fun c => decide (c ≠ 0)))

/-- Embedding of the header part of readTRK.  The gzip path (magic other
than TRAC or the zstd pattern) hands the whole buffer to the external
decompression collaborator and is outside the modelled core; the zstd
magic is a typed fatal error.  A body whose byte count is not a multiple
of 4 makes the Int32Array construction throw a RangeError. -/
def trkHeaderParse (b : List Nat) : Except Err TrkParams := do
  let magic ← orRE (readU32LE b 0)
  if magic ≠ 1128354388 then
    if magic = 4247762216 then .error .trkZstd else .error .externalGz
  else do
  let vers ← orRE (readU32LE b 992)
  let hdrSz ← orRE (readU32LE b 996)
  if 2 < vers ∨ hdrSz ≠ 1000 then .error .trkBad
  else
    let nsc := (toSigned 16 (u16D b 36)).toNat
    let dpvIds := (List.range nsc).map (trkName b 38)
    let vx := f32D b 12
    let vy := f32D b 16
    let vz := f32D b 20
    let zoomMat : List JF :=
      [JF.div (.fin 1) vx, .fin 0, .fin 0, .fin (-(1/2)),
       .fin 0, JF.div (.fin 1) vy, .fin 0, .fin (-(1/2)),
       .fin 0, .fin 0, JF.div (.fin 1) vz, .fin (-(1/2)),
       .fin 0, .fin 0, .fin 0, .fin 1]
    let nprop := (toSigned 16 (u16D b 238)).toNat
    let dpsIds := (List.range nprop).map (trkName b 240)
    let mat := (List.range 16).map (fun i => f32D b (440 + 4 * i))
    let unset := el mat 15 = JF.fin 0
    let matF := if unset then mat4id else mat
    let body := b.drop 1000
    if body.length % 4 ≠ 0 then .error .rangeError
    else
      let ntracks := body.length / 4
      if ntracks < 1 then .error .trkEmpty
      else
        .ok { voxToMM := mat4mulGL zoomMat matF, nsc := nsc, nprop := nprop,
              dpvIds := dpvIds, dpsIds := dpsIds, ntracks := ntracks,
              body := body, warned := unset }

/-- Int32Array element read of the body (always used under the loop's
in-range guard). -/
def trkI32 (body : List Nat) (i : Nat) : Int := toSigned 32 (u32D body (4 * i))

/-- Float32Array element read of the body: an out-of-range JavaScript read
yields undefined, which every later use (arithmetic, Float32Array.from)
turns into NaN. -/
def trkF32 (body : List Nat) (ntracks i : Nat) : JF :=
  if i < ntracks then decodeF32 (u32D body (4 * i)) else .nan

/-- The state of the readTRK body loop. -/
structure TrkSt where
  i : Nat
  npt : Nat
  npt3 : Nat
  noffset : Nat
  offs : List Nat
  pts : List JF
  dpv : List (List JF)
  dps : List (List JF)
deriving DecidableEq, Repr

/-- One vertex of the readTRK inner loop: read a float triplet, apply the
voxel-to-world matrix rows (left-associated sums, as written in the
source), store the transformed triplet in the over-provisioned pts array,
then push one following float per declared scalar onto each per-vertex
attribute.  The ids never change during the loop, so the state keeps only
the vals lists. -/
def trkVertStep (body : List Nat) (ntracks : Nat) (vox : List JF) (nsc : Nat)
    (st : TrkSt) : TrkSt :=
  let ptx := trkF32 body ntracks st.i
  let pty := trkF32 body ntracks (st.i + 1)
  let ptz := trkF32 body ntracks (st.i + 2)
  let i2 := st.i + 3
  let x := JF.add (JF.add (JF.add (JF.mul ptx (el vox 0)) (JF.mul pty (el vox 1)))
    (JF.mul ptz (el vox 2))) (el vox 3)
  let y := JF.add (JF.add (JF.add (JF.mul ptx (el vox 4)) (JF.mul pty (el vox 5)))
    (JF.mul ptz (el vox 6))) (el vox 7)
  let z := JF.add (JF.add (JF.add (JF.mul ptx (el vox 8)) (JF.mul pty (el vox 9)))
    (JF.mul ptz (el vox 10))) (el vox 11)
  { st with
    i := i2 + nsc,
    npt := st.npt + 1,
    npt3 := st.npt3 + 3,
    pts := setF (setF (setF st.pts st.npt3 x) (st.npt3 + 1) y) (st.npt3 + 2) z,
    dpv := List.zipWith (fun vals s => vals ++ [trkF32 body ntracks (i2 + s)])
      st.dpv (List.range nsc) }

/-- The per-vertex inner loop of readTRK: n_pts executions of the vertex
step. -/
def trkVertLoop (body : List Nat) (ntracks : Nat) (vox : List JF) (nsc : Nat) :
    Nat → TrkSt → TrkSt
  | 0, st => st
  | c + 1, st => trkVertLoop body ntracks vox nsc c (trkVertStep body ntracks vox nsc st)

/-- One streamline of the readTRK body loop: read the vertex count, record
the current vertex total as the next offset entry, run the vertex loop,
then push one float per declared property onto each per-streamline
attribute. -/
def trkStreamStep (body : List Nat) (ntracks : Nat) (vox : List JF) (nsc nprop : Nat)
    (st : TrkSt) : TrkSt :=
  let nPts := (trkI32 body st.i).toNat
  let st1 := { st with i := st.i + 1,
                       offs := setU32 st.offs st.noffset st.npt,
                       noffset := st.noffset + 1 }
  let st2 := trkVertLoop body ntracks vox nsc nPts st1
  { st2 with
    i := st2.i + nprop,
    dps := List.zipWith (fun vals j => vals ++ [trkF32 body ntracks (st2.i + j)])
      st2.dps (List.range nprop) }

/-- The streamline loop of readTRK.  Fuel exceeds the iteration count
because i strictly increases. -/
def trkLoop (body : List Nat) (ntracks : Nat) (vox : List JF) (nsc nprop : Nat) :
    Nat → TrkSt → TrkSt
  | 0, st => st
  | fuel + 1, st =>
    if st.i < ntracks then
      trkLoop body ntracks vox nsc nprop fuel (trkStreamStep body ntracks vox nsc nprop st)
    else st

/-- The initial loop state: over-provisioned offset array of ntracks/4
32-bit slots and vertex array of ntracks float slots, empty attribute
value lists. -/
def trkInit (p : TrkParams) : TrkSt :=
  { i := 0, npt := 0, npt3 := 0, noffset := 0,
    offs := List.replicate (p.ntracks / 4) 0,
    pts := List.replicate p.ntracks (JF.fin 0),
    dpv := List.replicate p.nsc [],
    dps := List.replicate p.nprop [] }

/-- The full body loop of readTRK. -/
def trkRun (p : TrkParams) : TrkSt :=
  trkLoop p.body p.ntracks p.voxToMM p.nsc p.nprop p.ntracks (trkInit p)

/-- The output of readTRK; warned records the log.warn emitted when the
header's vox_to_ras matrix was unset and identity was substituted. -/
structure TRKOut where
  pts : List JF
  offsetPt0 : List Nat
  dps : List AttrArr
  dpv : List AttrArr
  warned : Bool
deriving DecidableEq, Repr

/-- The tail of readTRK: append the fence-post entry (a typed-array write
that is dropped when the over-provisioned offset array is already full),
trim both over-provisioned arrays, and attach the attribute names. -/
def trkFinish (p : TrkParams) (st : TrkSt) : TRKOut :=
  let offs2 := setU32 st.offs st.noffset st.npt
  { pts := st.pts.take st.npt3,
    offsetPt0 := offs2.take (st.noffset + 1),
    dps := List.zipWith (fun id vals => AttrArr.mk id vals) p.dpsIds st.dps,
    dpv := List.zipWith (fun id vals => AttrArr.mk id vals) p.dpvIds st.dpv,
    warned := p.warned }

/-- Embedding of readTRK (src/nvtract-loaders.ts). -/
def readTRK (b : List Nat) : Except Err TRKOut :=
  match trkHeaderParse b with
  | .error e => .error e
  | .ok p => .ok (trkFinish p (trkRun p))

end TrxJs

namespace TrxJs

/-! ## Claims C3 (TRK part), C5 (TRK part), C6 -/

/-- A 32-bit read past the end of the buffer throws. -/
theorem readU32LE_none {b : List Nat} {i : Nat} (h : b.length < i + 4) :
    readU32LE b i = none := by
  unfold readU32LE
  have h3 : byteAt b (i + 3) = none := by
    unfold byteAt; exact List.get?_eq_none.mpr (by omega)
  rw [h3]
  cases byteAt b i <;> cases byteAt b (i + 1) <;> cases byteAt b (i + 2) <;> rfl

/-- readTRK performs no minimum-length check: on any buffer carrying the
TRAC magic but shorter than the 1000-byte header, the version or
header-size DataView read is out of bounds and surfaces as a RangeError,
not as a typed truncation error. -/
theorem readTRK_short (b : List Nat) (hm : readU32LE b 0 = some 1128354388)
    (hl : b.length < 1000) : readTRK b = .error .rangeError := by
  unfold readTRK trkHeaderParse
  rw [hm]
  rcases Nat.lt_or_ge b.length 996 with h9 | h9
  · rw [readU32LE_none (by omega)]
    rfl
  · rw [readU32LE_in_range (by omega), readU32LE_none (by omega)]
    rfl

/-- Pushing one element onto every list in a zipWith keeps all lengths one
above a common bound. -/
theorem mem_zipWith_push {α : Type} (g : Nat → α) (m : Nat) :
    ∀ (l : List (List α)) (bs : List Nat), (∀ v ∈ l, v.length = m) →
      ∀ v ∈ List.zipWith (fun vals s => vals ++ [g s]) l bs, v.length = m + 1 := by
  intro l
  induction l with
  | nil => intro bs _ v hv; simp at hv
  | cons hd tl ih =>
    intro bs hall v hv
    cases bs with
    | nil => simp at hv
    | cons b0 bs' =>
      simp only [List.zipWith, List.mem_cons] at hv
      rcases hv with rfl | hv
      · simp [hall hd (by simp)]
      · exact ih bs' (fun w hw => hall w (by simp [hw])) v hv

/-- Members of the id-attaching zipWith take their vals from the second
list. -/
theorem zipWith_mk_vals :
    ∀ (ids : List (List Nat)) (vs : List (List JF)) a,
      a ∈ List.zipWith (fun id vals => AttrArr.mk id vals) ids vs → a.vals ∈ vs := by
  intro ids
  induction ids with
  | nil => intro vs a ha; simp at ha
  | cons hd tl ih =>
    intro vs a ha
    cases vs with
    | nil => simp at ha
    | cons v vs' =>
      simp only [List.zipWith, List.mem_cons] at ha
      rcases ha with rfl | ha
      · simp
      · simp [ih vs' a ha]

/-- Basic projections of the vertex step. -/
theorem trkVertStep_dps (body : List Nat) (ntracks : Nat) (vox : List JF) (nsc : Nat)
    (st : TrkSt) :
    (trkVertStep body ntracks vox nsc st).dps = st.dps ∧
    (trkVertStep body ntracks vox nsc st).noffset = st.noffset ∧
    (trkVertStep body ntracks vox nsc st).offs = st.offs ∧
    (trkVertStep body ntracks vox nsc st).npt = st.npt + 1 ∧
    (trkVertStep body ntracks vox nsc st).npt3 = st.npt3 + 3 ∧
    (trkVertStep body ntracks vox nsc st).pts.length = st.pts.length ∧
    (trkVertStep body ntracks vox nsc st).dpv =
      List.zipWith (fun vals s => vals ++ [trkF32 body ntracks (st.i + 3 + s)])
        st.dpv (List.range nsc) := by
  refine ⟨rfl, rfl, rfl, rfl, rfl, ?_, rfl⟩
  simp [trkVertStep, setF, List.length_set]

/-- Component facts of the vertex loop: per-streamline data is untouched,
the vertex counters advance by the vertex count, array capacities are
preserved, and every per-vertex attribute grows by exactly one value per
vertex. -/
theorem trkVertLoop_facts (body : List Nat) (ntracks : Nat) (vox : List JF) (nsc : Nat) :
    ∀ (c : Nat) (st : TrkSt),
      (trkVertLoop body ntracks vox nsc c st).dps = st.dps ∧
      (trkVertLoop body ntracks vox nsc c st).noffset = st.noffset ∧
      (trkVertLoop body ntracks vox nsc c st).offs = st.offs ∧
      (trkVertLoop body ntracks vox nsc c st).npt = st.npt + c ∧
      (trkVertLoop body ntracks vox nsc c st).npt3 = st.npt3 + 3 * c ∧
      (trkVertLoop body ntracks vox nsc c st).pts.length = st.pts.length ∧
      (st.dpv.length = nsc →
        ((trkVertLoop body ntracks vox nsc c st).dpv.length = nsc ∧
          ((∀ v ∈ st.dpv, v.length = st.npt) →
            ∀ v ∈ (trkVertLoop body ntracks vox nsc c st).dpv, v.length = st.npt + c))) := by
  intro c
  induction c with
  | zero =>
    intro st
    exact ⟨rfl, rfl, rfl, rfl, rfl, rfl,
      fun hlen => ⟨hlen, fun hall v hv => by rw [Nat.add_zero]; exact hall v hv⟩⟩
  | succ n ih =>
    intro st
    simp only [trkVertLoop]
    obtain ⟨s1, s2, s3, s4, s5, s6, s7⟩ := trkVertStep_dps body ntracks vox nsc st
    obtain ⟨h1, h2, h3, h4, h5, h6, h7⟩ := ih (trkVertStep body ntracks vox nsc st)
    refine ⟨by rw [h1, s1], by rw [h2, s2], by rw [h3, s3],
      by rw [h4, s4]; omega, by rw [h5, s5]; omega, by rw [h6, s6], ?_⟩
    intro hlen
    have hstepLen : (trkVertStep body ntracks vox nsc st).dpv.length = nsc := by
      rw [s7]; simp [List.length_zipWith, hlen]
    obtain ⟨hL, hM⟩ := h7 hstepLen
    refine ⟨hL, fun hall v hv => ?_⟩
    have hstepMem : ∀ w ∈ (trkVertStep body ntracks vox nsc st).dpv,
        w.length = (trkVertStep body ntracks vox nsc st).npt := by
      rw [s7, s4]
      exact mem_zipWith_push _ st.npt st.dpv (List.range nsc) hall
    have hres := hM hstepMem v hv
    rw [hres, s4]
    omega

end TrxJs

namespace TrxJs

/-- Writes into a typed array keep its length. -/
theorem setU32_length (l : List Nat) (i : Nat) (v : Int) :
    (setU32 l i v).length = l.length := by
  simp [setU32]

/-- The loop invariant of the readTRK body loop: per-vertex attribute
counts and lengths track the vertex total, per-streamline attribute
lengths track the offset count, npt3 is three vertices' worth, and the
over-provisioned arrays keep their capacities. -/
def TrkInv (nsc nprop ocap pcap : Nat) (st : TrkSt) : Prop :=
  st.dpv.length = nsc ∧ st.dps.length = nprop ∧
  (∀ v ∈ st.dpv, v.length = st.npt) ∧ (∀ v ∈ st.dps, v.length = st.noffset) ∧
  st.npt3 = 3 * st.npt ∧ st.offs.length = ocap ∧ st.pts.length = pcap

/-- One streamline step preserves the invariant. -/
theorem trkStreamStep_inv (body : List Nat) (ntracks : Nat) (vox : List JF)
    (nsc nprop ocap pcap : Nat) (st : TrkSt)
    (h : TrkInv nsc nprop ocap pcap st) :
    TrkInv nsc nprop ocap pcap (trkStreamStep body ntracks vox nsc nprop st) := by
  obtain ⟨hdpvL, hdpsL, hdpvM, hdpsM, h33, hoffL, hptsL⟩ := h
  unfold trkStreamStep
  set nPts := (trkI32 body st.i).toNat with hn
  set st1 : TrkSt := { st with i := st.i + 1,
                               offs := setU32 st.offs st.noffset st.npt,
                               noffset := st.noffset + 1 } with hst1
  obtain ⟨f1, f2, f3, f4, f5, f6, f7⟩ := trkVertLoop_facts body ntracks vox nsc nPts st1
  set st2 := trkVertLoop body ntracks vox nsc nPts st1 with hst2
  have hst1dpv : st1.dpv = st.dpv := rfl
  have hst1dps : st1.dps = st.dps := rfl
  obtain ⟨g1, g2⟩ := f7 (by rw [hst1dpv]; exact hdpvL)
  refine ⟨g1, ?_, ?_, ?_, ?_, ?_, ?_⟩
  · show (List.zipWith (fun vals j => vals ++ [trkF32 body ntracks (st2.i + j)])
      st2.dps (List.range nprop)).length = nprop
    rw [List.length_zipWith, f1, hst1dps, hdpsL, List.length_range]
    omega
  · show ∀ v ∈ st2.dpv, v.length = st2.npt
    intro v hv
    have := g2 (by rw [hst1dpv]; intro w hw; exact hdpvM w hw) v hv
    rw [this, f4]
  · show ∀ v ∈ List.zipWith (fun vals j => vals ++ [trkF32 body ntracks (st2.i + j)])
      st2.dps (List.range nprop), v.length = st2.noffset
    have hm : ∀ v ∈ st2.dps, v.length = st.noffset := by
      rw [f1, hst1dps]; exact hdpsM
    intro v hv
    have := mem_zipWith_push (fun j => trkF32 body ntracks (st2.i + j)) st.noffset
      st2.dps (List.range nprop) hm v hv
    rw [this, f2]
  · show st2.npt3 = 3 * st2.npt
    rw [f4, f5]
    show st1.npt3 + 3 * nPts = 3 * (st1.npt + nPts)
    have e1 : st1.npt3 = st.npt3 := rfl
    have e2 : st1.npt = st.npt := rfl
    rw [e1, e2, h33]
    ring
  · show st2.offs.length = ocap
    rw [f3]
    show (setU32 st.offs st.noffset st.npt).length = ocap
    rw [setU32_length, hoffL]
  · show st2.pts.length = pcap
    rw [f6]
    exact hptsL

/-- The invariant holds through the whole body loop. -/
theorem trkLoop_inv (body : List Nat) (ntracks : Nat) (vox : List JF)
    (nsc nprop ocap pcap : Nat) :
    ∀ (fuel : Nat) (st : TrkSt), TrkInv nsc nprop ocap pcap st →
      TrkInv nsc nprop ocap pcap (trkLoop body ntracks vox nsc nprop fuel st) := by
  intro fuel
  induction fuel with
  | zero => intro st h; exact h
  | succ n ih =>
    intro st h
    by_cases hlt : st.i < ntracks
    · have : trkLoop body ntracks vox nsc nprop (n + 1) st
          = trkLoop body ntracks vox nsc nprop n
              (trkStreamStep body ntracks vox nsc nprop st) := by
        simp only [trkLoop]; rw [if_pos hlt]
      rw [this]
      exact ih _ (trkStreamStep_inv body ntracks vox nsc nprop ocap pcap st h)
    · have : trkLoop body ntracks vox nsc nprop (n + 1) st = st := by
        simp only [trkLoop]; rw [if_neg hlt]
      rw [this]
      exact h

/-- C5 (amended, TRK half): whenever readTRK succeeds and its
over-provisioned output arrays were large enough (the final vertex-float
count fits the ntracks-slot pts array and the final offset count plus the
fence-post entry fits the ntracks/4-slot offset array), every per-vertex
attribute has length pts.length/3 and every per-streamline attribute has
length offsetPt0.length - 1.  The capacity provisos are forced by the
counterexamples: without them the typed-array writes beyond capacity are
silently dropped while the attribute lists keep growing. -/
theorem readTRK_c5_attr_lengths (b : List Nat) (p : TrkParams) (r : TRKOut)
    (hp : trkHeaderParse b = .ok p) (hr : readTRK b = .ok r)
    (h1 : (trkRun p).npt3 ≤ p.ntracks)
    (h2 : (trkRun p).noffset + 1 ≤ p.ntracks / 4) :
    (∀ a ∈ r.dpv, a.vals.length = r.pts.length / 3) ∧
    (∀ a ∈ r.dps, a.vals.length = r.offsetPt0.length - 1) := by
  have hr2 : r = trkFinish p (trkRun p) := by
    unfold readTRK at hr
    rw [hp] at hr
    exact (Except.ok.inj hr).symm
  have hinv0 : TrkInv p.nsc p.nprop (p.ntracks / 4) p.ntracks (trkInit p) := by
    refine ⟨by simp [trkInit], by simp [trkInit], ?_, ?_, rfl, by simp [trkInit],
      by simp [trkInit]⟩
    · intro v hv
      rw [List.eq_of_mem_replicate hv]
      rfl
    · intro v hv
      rw [List.eq_of_mem_replicate hv]
      rfl
  have hinv : TrkInv p.nsc p.nprop (p.ntracks / 4) p.ntracks (trkRun p) :=
    trkLoop_inv p.body p.ntracks p.voxToMM p.nsc p.nprop _ _ p.ntracks (trkInit p) hinv0
  obtain ⟨hdpvL, hdpsL, hdpvM, hdpsM, h33, hoffL, hptsL⟩ := hinv
  subst hr2
  constructor
  · intro a ha
    have hv := zipWith_mk_vals p.dpvIds (trkRun p).dpv a ha
    have hlen := hdpvM a.vals hv
    have hptslen : (trkFinish p (trkRun p)).pts.length = (trkRun p).npt3 := by
      show ((trkRun p).pts.take (trkRun p).npt3).length = _
      rw [List.length_take, hptsL]
      omega
    rw [hptslen, hlen, h33]
    omega
  · intro a ha
    have hv := zipWith_mk_vals p.dpsIds (trkRun p).dps a ha
    have hlen := hdpsM a.vals hv
    have hofflen : (trkFinish p (trkRun p)).offsetPt0.length = (trkRun p).noffset + 1 := by
      show ((setU32 (trkRun p).offs (trkRun p).noffset (trkRun p).npt).take
        ((trkRun p).noffset + 1)).length = _
      rw [List.length_take, setU32_length, hoffL]
      omega
    rw [hofflen, hlen]
    omega

end TrxJs

namespace TrxJs

/-- The spec's synthetic TRK vector: TRAC magic, voxel sizes 1.0, zero
scalars and properties, all-zero transform matrix (element [3][3] = 0),
version 2, header size 1000, then one record with count 1 and vertex
(1,2,3). -/
def trkBufC6 : List Nat :=
  u32le 1128354388 ++ List.replicate 8 0 ++ f32one ++ f32one ++ f32one ++
  List.replicate 12 0 ++ u16le 0 ++ List.replicate 200 0 ++ u16le 0 ++
  List.replicate 200 0 ++ List.replicate 64 0 ++ List.replicate 488 0 ++
  u32le 2 ++ u32le 1000 ++
  u32le 1 ++ f32one ++ f32two ++ f32three

/-- A TRK buffer with one scalar (name s) and one property (name p) and
two streamlines of two vertices each: each record is count 2, then two
(x,y,z,scalar) vertex groups, then the property float. -/
def trkBufC5w : List Nat :=
  u32le 1128354388 ++ List.replicate 8 0 ++ f32one ++ f32one ++ f32one ++
  List.replicate 12 0 ++ u16le 1 ++ [115] ++ List.replicate 199 0 ++ u16le 1 ++
  [112] ++ List.replicate 199 0 ++ List.replicate 64 0 ++ List.replicate 488 0 ++
  u32le 2 ++ u32le 1000 ++
  u32le 2 ++ f32one ++ f32one ++ f32one ++ f32two ++
             f32two ++ f32two ++ f32two ++ f32three ++ u32le 0 ++
  u32le 2 ++ f32one ++ f32one ++ f32one ++ f32two ++
             f32two ++ f32two ++ f32two ++ f32three ++ u32le 0

/-- The header parameters readTRK computes for trkBufC5w: unit voxel
sizes against the substituted identity matrix give the plain -0.5
translation, one scalar s, one property p, and a 20-word body. -/
def pC5w : TrkParams :=
  { voxToMM := [.fin 1, .fin 0, .fin 0, .fin (-(1/2)),
                .fin 0, .fin 1, .fin 0, .fin (-(1/2)),
                .fin 0, .fin 0, .fin 1, .fin (-(1/2)),
                .fin 0, .fin 0, .fin 0, .fin 1],
    nsc := 1, nprop := 1, dpvIds := [[115]], dpsIds := [[112]],
    ntracks := 20, body := trkBufC5w.drop 1000, warned := true }

/-- A stored (method 0) local ZIP entry with the given name and payload. -/
def storedEntry (name payload : List Nat) : List Nat :=
  [80, 75, 3, 4] ++ u16le 20 ++ u16le 0 ++ u16le 0 ++ u16le 0 ++ u16le 0 ++
  u32le 0 ++ u32le payload.length ++ u32le payload.length ++
  u16le name.length ++ u16le 0 ++ name ++ payload

/-- A TRX archive with a one-element uint32 offsets array, six position
floats (two vertices), and a dpv attribute x of length one. -/
def trxBufC5 : List Nat :=
  storedEntry (asc "t/offsets.uint32") (u32le 0) ++
  storedEntry (asc "t/positions.3.float32")
    (f32one ++ f32one ++ f32one ++ f32one ++ f32one ++ f32one) ++
  storedEntry (asc "t/dpv/x.float32") f32one ++
  [80, 75, 5, 6] ++ List.replicate 18 0

set_option maxRecDepth 100000 in
/-- C6: on the spec's synthetic TRK vector, readTRK does decode exactly
one vertex at the claimed voxel-corner-adjusted coordinate
(0.5, 1.5, 2.5), and the unset-matrix identity substitution is a warning
(warned = true), not an error.  But the returned offsetPt0 is [0], not
the fence-post [0, 1] describing one streamline: the over-provisioned
Uint32Array(ntracks/4) has a single slot here, so the final
offsetPt0[noffset] = npt append targets index 1 and is silently dropped
(JavaScript typed-array writes out of range are no-ops). -/
theorem readTRK_c6_vector :
    readTRK trkBufC6 =
      .ok { pts := [.fin (1/2), .fin (3/2), .fin (5/2)], offsetPt0 := [0],
            dps := [], dpv := [], warned := true } ∧
    ([0] : List Nat) ≠ [0, 1] := by
  exact ⟨by with_unfolding_all decide, by decide⟩

set_option maxRecDepth 100000 in
/-- C3 (counterexample): readTRK on the 4-byte buffer holding only the
TRAC magic — far below the 1000-byte header minimum — fails with the
RangeError of an out-of-bounds DataView read at offset 992, not with any
typed truncated-input error (readTRK has no minimum-length check at
all). -/
theorem readTRK_c3_counterexample :
    readTRK (u32le 1128354388) = .error .rangeError := by
  with_unfolding_all decide

set_option maxRecDepth 100000 in
/-- C5 (counterexample): readTRX performs no attribute-length check.  An
archive with 6 position floats (2 vertices), a one-element offsets array
and a one-element dpv array decodes successfully, with the per-vertex
attribute of length 1 while pts.length/3 = 2.  (It also shows the final
fence-post offset write being dropped: offsetPt0 stays [0].) -/
theorem readTRX_c5_counterexample :
    readTRX trxBufC5 =
      .ok { pts := [.fin 1, .fin 1, .fin 1, .fin 1, .fin 1, .fin 1],
            offsetPt0 := [0], dpg := [], dps := [],
            dpv := [⟨[120], [.fin 1]⟩], header := none } ∧
    (1 : Nat) ≠ 6 / 3 := by
  exact ⟨by with_unfolding_all decide, by decide⟩

set_option maxRecDepth 400000 in
/-- Witness for the amended C5 theorem on a TRK buffer whose output
arrays are large enough: both attribute-length equations hold. -/
theorem readTRK_c5_witness :
    (∀ a ∈ (trkFinish pC5w (trkRun pC5w)).dpv,
      a.vals.length = (trkFinish pC5w (trkRun pC5w)).pts.length / 3) ∧
    (∀ a ∈ (trkFinish pC5w (trkRun pC5w)).dps,
      a.vals.length = (trkFinish pC5w (trkRun pC5w)).offsetPt0.length - 1) :=
  readTRK_c5_attr_lengths trkBufC5w pC5w (trkFinish pC5w (trkRun pC5w))
    (by with_unfolding_all decide) (by with_unfolding_all decide)
    (by with_unfolding_all decide) (by with_unfolding_all decide)

end TrxJs

namespace TrxJs

/-! ## readVTK (legacy binary POLYDATA, big-endian) -/

/-- Unchecked big-endian uint32 (used under in-range guards). -/
def u32BED (b : List Nat) (i : Nat) : Nat :=
  byteD b (i + 3) + byteD b (i + 2) * 256 + byteD b (i + 1) * 65536 + byteD b i * 16777216

/-- Unchecked big-endian uint64 (used under in-range guards). -/
def u64BED (b : List Nat) (i : Nat) : Nat := u32BED b (i + 4) + u32BED b i * 4294967296

/-- The readStr helper of readVTK: like TCK's but with a trim. -/
def readStrVTK (b : List Nat) (pos : Nat) : List Nat × Nat :=
  let n1 : Nat := countWhile (fun c => c = 10) (b.drop pos)
  let p1 : Nat := pos + n1
  let n2 : Nat := countWhile (fun c => decide (c ≠ 10)) (b.drop p1)
  (trimAsc ((b.drop p1).take n2), p1 + n2 + 1)

/-- Multiplication of a parsed header number by a literal (NaN
propagates). -/
def jsMulNat (n : JSNum) (k : Nat) : JSNum :=
  match n with
  | .nan => .nan
  | .int v => .int (v * k)

/-- ToIndex of a typed-array length argument: NaN becomes 0, a negative
length throws a RangeError, otherwise the integer itself. -/
def jsToIndex : JSNum → Except Err Nat
  | .nan => .ok 0
  | .int v => if v < 0 then .error .rangeError else .ok v.toNat

/-- ToIndex of length-plus-one (the Uint32Array(n_count + 1) of the
standard LINES branch). -/
def jsToIndexPlus1 : JSNum → Except Err Nat
  | .nan => .ok 0
  | .int v => if v + 1 < 0 then .error .rangeError else .ok (v + 1).toNat

/-- Iteration count of a for-loop bounded by a parsed header number: NaN
and negative bounds give zero iterations. -/
def jsLoopCount : JSNum → Nat
  | .nan => 0
  | .int v => v.toNat

/-- The comparison idx + 2 >= nvert3 of the standard LINES branch; false
when nvert3 is NaN, as every JavaScript comparison with NaN is. -/
def jsGEnvert (x : Int) (nv : JSNum) : Bool :=
  match nv with
  | .nan => false
  | .int v => decide (v ≤ x)

/-- A Float32Array element read at a possibly negative or too-large
index: out-of-range JavaScript reads yield undefined, which the final
Float32Array construction stores as NaN. -/
def posAt (positions : List JF) (idx : Int) : JF :=
  if 0 ≤ idx ∧ idx < positions.length then positions.getD idx.toNat JF.nan else JF.nan

/-- Result of the standard LINES loop.  The idxs component records every
resolved vertex index (the source discards it; it is kept as a proof
artifact for the bound-check property and does not influence pts or
offs). -/
structure VtkInnerOut where
  pos : Nat
  pts : List JF
  idxs : List Int
deriving DecidableEq, Repr

/-- The per-line index loop of the standard LINES branch: read big-endian
int32 indices, scale by 3, abort on the upper-bound test
idx + 2 >= nvert3, and resolve the three point components (undefined
reads at negative indices become NaN). -/
def vtkInner (b : List Nat) (positions : List JF) (nvert3 : JSNum) :
    Nat → Nat → List JF → List Int → Except Err VtkInnerOut
  | 0, pos, pts, idxs => .ok ⟨pos, pts, idxs⟩
  | i + 1, pos, pts, idxs =>
    if b.length < pos + 4 then .error .vtkEofPoints
    else
      let idx : Int := toSigned 32 (u32BED b pos) * 3
      if jsGEnvert (idx + 2) nvert3 then .error .vtkIndexOOB
      else
        vtkInner b positions nvert3 i (pos + 4)
          (pts ++ [posAt positions idx, posAt positions (idx + 1), posAt positions (idx + 2)])
          (idxs ++ [idx])

/-- Result of the standard LINES outer loop. -/
structure VtkLinesOut where
  pos : Nat
  npt : Int
  offs : List Nat
  pts : List JF
  idxs : List Int
deriving DecidableEq, Repr

/-- The streamline loop of the standard LINES branch: read each line's
big-endian vertex count, accumulate the fence-post offsets, and run the
index loop. -/
def vtkOuter (b : List Nat) (positions : List JF) (nvert3 : JSNum) :
    Nat → Nat → Int → Nat → List Nat → List JF → List Int →
    Except Err VtkLinesOut
  | 0, pos, npt, _, offs, pts, idxs => .ok ⟨pos, npt, offs, pts, idxs⟩
  | n + 1, pos, npt, c, offs, pts, idxs =>
    if b.length < pos + 4 then .error .vtkEofCount
    else
      let numPoints : Int := toSigned 32 (u32BED b pos)
      let npt2 := npt + numPoints
      let offs2 := setU32 offs (c + 1) npt2
      match vtkInner b positions nvert3 numPoints.toNat (pos + 4) pts idxs with
      | .error e => .error e
      | .ok r => vtkOuter b positions nvert3 n r.pos npt2 (c + 1) offs2 r.pts r.idxs

/-- The int64 OFFSETS loop: read each offset as a pair of big-endian
int32 words, keep the low word (a nonzero high word only produces a
console warning). -/
def vtkOffLoop64 (b : List Nat) : Nat → Nat → Nat → List Nat → Except Err (List Nat)
  | 0, _, _, offs => .ok offs
  | n + 1, pos, c, offs =>
    match readI32BE b pos, readI32BE b (pos + 4) with
    | some _, some lo => vtkOffLoop64 b n (pos + 8) (c + 1) (setU32 offs c lo)
    | _, _ => .error .rangeError

/-- The int32 OFFSETS loop. -/
def vtkOffLoop32 (b : List Nat) : Nat → Nat → Nat → List Nat → Except Err (List Nat)
  | 0, _, _, offs => .ok offs
  | n + 1, pos, c, offs =>
    match readI32BE b pos with
    | some v => vtkOffLoop32 b n (pos + 4) (c + 1) (setU32 offs c v)
    | none => .error .rangeError

/-- Embedding of readVTK (vtk-loaders.ts): newline-delimited ASCII header
(signature, comment, BINARY, POLYDATA, POINTS with float/double), the
big-endian point table (doubles are widened; the inputs used in the
theorems are all float32), then either the OFFSETS extension branch or
the standard LINES branch. -/
def readVTK (b : List Nat) : Except Err Tract :=
  if b.length < 20 then .error .vtkTooSmall else
  let r1 := readStrVTK b 0
  if listStartsWith (asc "# vtk DataFile") r1.1 = false then .error .vtkBadSig else
  let r2 := readStrVTK b r1.2
  let r3 := readStrVTK b r2.2
  if listStartsWith (asc "ASCII") r3.1 then .error .vtkNotBinary
  else if listStartsWith (asc "BINARY") r3.1 = false then .error .vtkNotBinary else
  let r4 := readStrVTK b r3.2
  if hasSub (asc "POLYDATA") r4.1 = false then .error .vtkNotPolydata else
  let r5 := readStrVTK b r4.2
  if (listStartsWith (asc "POINTS") r5.1 &&
      (hasSub (asc "double") r5.1 || hasSub (asc "float") r5.1)) = false then
    .error .vtkBadPoints
  else
  let isFloat64 := hasSub (asc "double") r5.1
  let items := splitWs r5.1
  let nvert := parseIntJS (items.getD 1 [])
  let nvert3 := jsMulNat nvert 3
  let w : Nat := if isFloat64 then 8 else 4
  do
  let posLen ← jsToIndex nvert3
  match nvert3 with
  | .int v =>
      if (r5.2 : Int) + w * v > b.length then .error .vtkPointsPastEnd else .ok ()
  | .nan => .ok ()
  let positions := (List.range posLen).map (fun i =>
    if isFloat64 then decodeF64 (u64BED b (r5.2 + 8 * i))
    else decodeF32 (u32BED b (r5.2 + 4 * i)))
  let pos6 := r5.2 + w * posLen
  let rL := readStrVTK b pos6
  if listStartsWith (asc "LINES") rL.1 = false then .error .vtkNotLines else
  let lineItems := splitWs rL.1
  let nCount := parseIntJS (lineItems.getD 1 [])
  let posOK := rL.2
  let rO := readStrVTK b posOK
  if listStartsWith (asc "OFFSETS") rO.1 then
    let isInt64 := hasSub (asc "int64") rO.1
    do
    let cLen ← jsToIndex nCount
    let offs0 := List.replicate cLen 0
    let offs ←
      if isInt64 then vtkOffLoop64 b (jsLoopCount nCount) rO.2 0 offs0
      else vtkOffLoop32 b (jsLoopCount nCount) rO.2 0 offs0
    .ok { pts := positions, offsetPt0 := offs }
  else do
    let nC1 ← jsToIndexPlus1 nCount
    let offs0 := setU32 (List.replicate nC1 0) 0 0
    match vtkOuter b positions nvert3 (jsLoopCount nCount) posOK 0 0 offs0 [] [] with
    | .error e => .error e
    | .ok r => .ok { pts := r.pts, offsetPt0 := r.offs }

end TrxJs

namespace TrxJs

/-! ## Claim C9: the VTK index bound check -/

/-- A binary VTK POLYDATA buffer with one point (1,2,3) and one LINES
record of one vertex whose index is -1. -/
def vtkBufC9 : List Nat :=
  asc "# vtk DataFile\nc\nBINARY\nDATASET POLYDATA\nPOINTS 1 float\n" ++
  [63, 128, 0, 0] ++ [64, 0, 0, 0] ++ [64, 64, 0, 0] ++
  asc "LINES 1 2\n" ++
  [0, 0, 0, 1] ++ [255, 255, 255, 255]

/-- The index loop only ever lets through indices that pass the
implemented upper-bound test idx + 2 >= nvert3. -/
theorem vtkInner_ok_indices (b : List Nat) (positions : List JF) (nvert3 : JSNum) :
    ∀ (n pos : Nat) (pts : List JF) (idxs : List Int) (out : VtkInnerOut),
      vtkInner b positions nvert3 n pos pts idxs = .ok out →
      (∀ v ∈ idxs, jsGEnvert (v + 2) nvert3 = false) →
      ∀ v ∈ out.idxs, jsGEnvert (v + 2) nvert3 = false := by
  intro n
  induction n with
  | zero =>
    intro pos pts idxs out hok hpre
    simp only [vtkInner] at hok
    cases hok
    exact hpre
  | succ m ih =>
    intro pos pts idxs out hok hpre
    simp only [vtkInner] at hok
    by_cases h1 : b.length < pos + 4
    · rw [if_pos h1] at hok; simp at hok
    · rw [if_neg h1] at hok
      by_cases h2 : jsGEnvert (toSigned 32 (u32BED b pos) * 3 + 2) nvert3 = true
      · rw [if_pos h2] at hok; simp at hok
      · rw [if_neg h2] at hok
        refine ih _ _ _ _ hok ?_
        intro v hv
        rcases List.mem_append.mp hv with h | h
        · exact hpre v h
        · rw [List.mem_singleton.mp h]
          simpa using h2

/-- C9 (amended): whenever the standard LINES branch completes without a
fatal error, every resolved vertex index passed the implemented bound
test idx + 2 >= nvert3 — the only index check the decoder performs.  An
index failing that test aborts the decode with the IndexOutOfBounds
error, but a negative index passes the test (see the counterexample): the
claim's parenthetical about negative indices does not hold. -/
theorem vtkOuter_c9_ok_indices (b : List Nat) (positions : List JF) (nvert3 : JSNum) :
    ∀ (n pos : Nat) (npt : Int) (c : Nat) (offs : List Nat) (pts : List JF)
      (idxs : List Int) (out : VtkLinesOut),
      vtkOuter b positions nvert3 n pos npt c offs pts idxs = .ok out →
      (∀ v ∈ idxs, jsGEnvert (v + 2) nvert3 = false) →
      ∀ v ∈ out.idxs, jsGEnvert (v + 2) nvert3 = false := by
  intro n
  induction n with
  | zero =>
    intro pos npt c offs pts idxs out hok hpre
    simp only [vtkOuter] at hok
    cases hok
    exact hpre
  | succ m ih =>
    intro pos npt c offs pts idxs out hok hpre
    simp only [vtkOuter] at hok
    by_cases h1 : b.length < pos + 4
    · rw [if_pos h1] at hok; simp at hok
    · rw [if_neg h1] at hok
      cases hin : vtkInner b positions nvert3 (toSigned 32 (u32BED b pos)).toNat
          (pos + 4) pts idxs with
      | error e => rw [hin] at hok; simp at hok
      | ok r =>
        rw [hin] at hok
        exact ih _ _ _ _ _ _ _ hok
          (vtkInner_ok_indices b positions nvert3 _ _ _ _ _ hin hpre)

/-- C9 (counterexample): the LINES record of vtkBufC9 references index
-1, which is outside the one-point table; yet readVTK raises no error and
returns a Tractogram whose single vertex is three NaNs (the undefined
reads at negative positions).  The fatal-error claim fails for negative
indices. -/
theorem readVTK_c9_counterexample :
    readVTK vtkBufC9 = .ok { pts := [.nan, .nan, .nan], offsetPt0 := [0, 1] } ∧
    toSigned 32 (u32BED vtkBufC9 82) = -1 := by
  exact ⟨by with_unfolding_all decide, by with_unfolding_all decide⟩

/-- Witness for the amended C9 theorem: a one-line, one-vertex loop run
with index 0 against a one-point table completes, and its recorded index
(instantiated into the theorem's conclusion) passes the bound test. -/
theorem vtkOuter_c9_witness :
    jsGEnvert ((0 : Int) + 2) (JSNum.int 3) = false :=
  vtkOuter_c9_ok_indices [0, 0, 0, 1, 0, 0, 0, 0] [JF.fin 1, JF.fin 2, JF.fin 3]
    (JSNum.int 3) 1 0 0 0 [0, 0] [] []
    ⟨8, 1, [0, 1], [JF.fin 1, JF.fin 2, JF.fin 3], [0]⟩
    (by with_unfolding_all decide) (by decide) 0 (by decide)

end TrxJs

namespace TrxJs

/-! ## readMatV4 and readTT (TT format) -/

/-- DataView getInt8. -/
def readI8 (b : List Nat) (i : Nat) : Option Int :=
  (byteAt b i).map (toSigned 8)

/-- A variable parsed from a MAT v4 file: its element count, raw data
bytes and decoded values. -/
structure MatData where
  elemCount : Nat
  bytes : List Nat
  vals : List JF
deriving DecidableEq, Repr

/-- The readArray helper of readMatV4: decode the raw bytes by the tens
digit of the type code (0 float64, 1 float32, 2 int32, 3 int16, 4 uint16,
5 uint8); a typed-array view over a misaligned byte count throws. -/
def matDecodeVals (t : Nat) (bytes : List Nat) : Except Err (List JF) :=
  if t = 1 then
    if bytes.length % 4 = 0 then
      .ok ((List.range (bytes.length / 4)).map (fun i => f32D bytes (4 * i)))
    else .error .rangeError
  else if t = 2 then
    if bytes.length % 4 = 0 then
      .ok ((List.range (bytes.length / 4)).map
        (fun i => JF.fin (toSigned 32 (u32D bytes (4 * i)))))
    else .error .rangeError
  else if t = 3 then
    if bytes.length % 2 = 0 then
      .ok ((List.range (bytes.length / 2)).map
        (fun i => JF.fin (toSigned 16 (u16D bytes (2 * i)))))
    else .error .rangeError
  else if t = 4 then
    if bytes.length % 2 = 0 then
      .ok ((List.range (bytes.length / 2)).map (fun i => JF.fin (u16D bytes (2 * i))))
    else .error .rangeError
  else if t = 5 then .ok (bytes.map (fun v => JF.fin v))
  else
    if bytes.length % 8 = 0 then
      .ok ((List.range (bytes.length / 8)).map (fun i => decodeF64 (u64D bytes (8 * i))))
    else .error .rangeError

/-- One tag of the MAT v4 stream (readTag): the 20-byte header, the
imaginary/row-count/datatype/endianness checks in source order, the name
(trimmed, NULs removed), and the data bytes (subarray clamps at the end
of the buffer).  Returns the name, the variable and the next cursor. -/
def readTagF (b : List Nat) (pos : Nat) : Except Err (List Nat × MatData × Nat) := do
  let mtype ← orRE (readU32LE b pos)
  let mrows ← orRE (readU32LE b (pos + 4))
  let ncols ← orRE (readU32LE b (pos + 8))
  let imagf ← orRE (readU32LE b (pos + 12))
  let namlen ← orRE (readU32LE b (pos + 16))
  let pos2 := pos + 20
  if imagf ≠ 0 then .error .matImaginary else
  let items := mrows * ncols
  if items < 1 then .error .matRowsCols else
  let nameBytes := (b.drop pos2).take namlen
  let tagName := (trimAsc nameBytes).filter (fun c => decide (c ≠ 0))
  let t := mtype / 10 % 10
  let w ← (if 1 ≤ t ∧ t ≤ 2 then .ok 4
           else if 3 ≤ t ∧ t ≤ 4 then .ok 2
           else if t = 5 then .ok 1
           else if t ≠ 0 then .error Err.matDataType
           else .ok 8 : Except Err Nat)
  let pos3 := pos2 + namlen
  if 50 < mtype then .error .matBigEndian else
  let dataBytes := (b.drop pos3).take (items * w)
  let vals ← matDecodeVals t dataBytes
  .ok (tagName, ⟨vals.length, dataBytes, vals⟩, pos3 + items * w)

/-- Assignment into the name-to-variable record (later tags overwrite
earlier ones of the same name). -/
def matSet (acc : List (List Nat × MatData)) (name : List Nat) (d : MatData) :
    List (List Nat × MatData) :=
  if acc.any (fun kv => kv.1 = name) then
    acc.map (fun kv => if kv.1 = name then (name, d) else kv)
  else acc ++ [(name, d)]

/-- Name lookup. -/
def matHas (acc : List (List Nat × MatData)) (name : List Nat) : Bool :=
  acc.any (fun kv => kv.1 = name)

/-- Variable lookup (only used under a matHas guard). -/
def matGet (acc : List (List Nat × MatData)) (name : List Nat) : MatData :=
  ((acc.find? (fun kv => kv.1 = name)).map (fun kv => kv.2)).getD ⟨0, [], []⟩

/-- The tag loop of readMatV4: read tags while at least 21 bytes remain.
Fuel exceeds the iteration count because the cursor advances by at least
21 per tag. -/
def matLoop (b : List Nat) : Nat → Nat → List (List Nat × MatData) →
    Except Err (List (List Nat × MatData))
  | 0, _, acc => .ok acc
  | fuel + 1, pos, acc =>
    if pos + 20 < b.length then
      match readTagF b pos with
      | .error e => .error e
      | .ok (name, d, pos2) => matLoop b fuel pos2 (matSet acc name d)
    else .ok acc

/-- Embedding of NVUtilities.readMatV4: the 40-byte minimum, the gzip
signature check (decompression is the external collaborator), then the
tag loop. -/
def readMatV4 (b : List Nat) : Except Err (List (List Nat × MatData)) :=
  if b.length < 40 then .error .matTooSmall else
  let magic := u16D b 0
  if magic = 35615 ∨ magic = 8075 then .error .externalGz
  else matLoop b (b.length + 1) 0 []

/-- The track variable as handed to parse_tt: the element count of the
typed array (which the source compares byte offsets against) and its
backing bytes. -/
structure TypedArr where
  elemCount : Nat
  bytes : List Nat
deriving DecidableEq, Repr

/-- The first scan of parse_tt: at each record start read the uint32 size
and jump size + 13 bytes ahead, collecting the record positions and the
total vertex-float count.  Fuel exceeds the iteration count because the
cursor advances by at least 13. -/
def ttScan (ta : TypedArr) : Nat → Nat → Except Err (List Nat × Nat)
  | 0, _ => .ok ([], 0)
  | fuel + 1, i =>
    if i < ta.elemCount then
      match readU32LE ta.bytes i with
      | none => .error .rangeError
      | some sz =>
        match ttScan ta fuel (i + sz + 13) with
        | .error e => .error e
        | .ok (ps, nv) => .ok (i :: ps, sz + nv)
    else .ok ([], 0)

/-- The delta decoding of one record's remaining points: three signed
byte deltas per point, accumulated onto the running coordinates. -/
def ttDeltas (bytes : List Nat) :
    Nat → Nat → Int → Int → Int → List JF → Nat → Except Err (List JF × Nat)
  | 0, _, _, _, _, pts, npt => .ok (pts, npt)
  | c + 1, p, x, y, z, pts, npt => do
    let dx ← orRE (readI8 bytes p)
    let dy ← orRE (readI8 bytes (p + 1))
    let dz ← orRE (readI8 bytes (p + 2))
    let x := x + dx
    let y := y + dy
    let z := z + dz
    ttDeltas bytes c (p + 3) x y z
      (setF (setF (setF pts npt (.fin x)) (npt + 1) (.fin y)) (npt + 2) (.fin z))
      (npt + 3)

/-- One record of the second parse_tt loop: the absolute little-endian
int32 first point at bytes 4..15, then (size/3 - 1) delta-coded points
(the JavaScript loop for j = 2; j <= size/3 runs floor(size/3) - 1 times
when size/3 >= 2 and not at all otherwise). -/
def ttRecord (bytes : List Nat) (p0 : Nat) (pts : List JF) (npt : Nat) :
    Except Err (List JF × Nat) := do
  let n := u32D bytes p0
  let x0 ← orRE (readI32LE bytes (p0 + 4))
  let y0 ← orRE (readI32LE bytes (p0 + 8))
  let z0 ← orRE (readI32LE bytes (p0 + 12))
  let pts := setF (setF (setF pts npt (.fin x0)) (npt + 1) (.fin y0)) (npt + 2) (.fin z0)
  let cnt := if 2 ≤ n / 3 then n / 3 - 1 else 0
  ttDeltas bytes cnt (p0 + 16) x0 y0 z0 pts (npt + 3)

/-- The record loop of parse_tt, also writing each record's starting
vertex index into the offsets array. -/
def ttRecords (bytes : List Nat) :
    List Nat → Nat → List Nat → List JF → Nat → Except Err (List Nat × List JF × Nat)
  | [], _, offs, pts, npt => .ok (offs, pts, npt)
  | p :: ps, i, offs, pts, npt => do
    let offs := setU32 offs i ((npt / 3 : Nat))
    let r ← ttRecord bytes p pts npt
    ttRecords bytes ps (i + 1) offs r.1 r.2

/-- Embedding of parse_tt: scan the records, decode them, divide the
first npt floats by 32, apply the (already transposed) trans_to_mni rows
to each decoded point, and fence-post the offsets. -/
def parse_tt (ta : TypedArr) (trans : List JF) : Except Err Tract := do
  let sc ← ttScan ta (ta.elemCount + 1) 0
  let r ← ttRecords ta.bytes sc.1 0 (List.replicate (sc.1.length + 1) 0)
    (List.replicate sc.2 (JF.fin 0)) 0
  let (offs, pts, npt) := r
  let pts2 := (List.range pts.length).map (fun k =>
    if k < npt then JF.div (el pts k) (.fin 32) else el pts k)
  let pts3 := (List.range pts2.length).map (fun k =>
    if k < npt then
      let t := 3 * (k / 3)
      let x := el pts2 t
      let y := el pts2 (t + 1)
      let z := el pts2 (t + 2)
      match k % 3 with
      | 0 => JF.add (JF.add (JF.add (JF.mul (el trans 0) x) (JF.mul (el trans 4) y))
          (JF.mul (el trans 8) z)) (el trans 12)
      | 1 => JF.add (JF.add (JF.add (JF.mul (el trans 1) x) (JF.mul (el trans 5) y))
          (JF.mul (el trans 9) z)) (el trans 13)
      | _ => JF.add (JF.add (JF.add (JF.mul (el trans 2) x) (JF.mul (el trans 6) y))
          (JF.mul (el trans 10) z)) (el trans 14)
    else el pts2 k)
  .ok { pts := pts3, offsetPt0 := setU32 offs sc.1.length ((npt / 3 : Nat)) }

/-- Embedding of readTT: parse the MAT v4 container, require the three
variables, build the transposed trans_to_mni (absent elements of a short
array read as undefined and are stored as NaN), and run parse_tt on the
track variable. -/
def readTT (b : List Nat) : Except Err Tract := do
  let mat ← readMatV4 b
  if matHas mat (asc "trans_to_mni") = false then .error .ttNoTrans else
  if matHas mat (asc "voxel_size") = false then .error .ttNoVoxel else
  if matHas mat (asc "track") = false then .error .ttNoTrack else
  let m := (matGet mat (asc "trans_to_mni")).vals
  let t0 := (List.range 16).map (fun i => m.getD i JF.nan)
  let trans := (List.range 16).map (fun i => el t0 ((i % 4) * 4 + i / 4))
  let tk := matGet mat (asc "track")
  parse_tt ⟨tk.elemCount, tk.bytes⟩ trans

end TrxJs

namespace TrxJs

/-- The C8 track blob: a single record, size field 3, absolute first
point (32, 64, 96) in 1/32-voxel units. -/
def ttBlobC8 : List Nat := u32le 3 ++ u32le 32 ++ u32le 64 ++ u32le 96

/-- C8: (i) each track record occupies size + 13 bytes, where size is its
leading little-endian uint32: whenever the scan reads size sz at an
in-range position i, it resumes at exactly i + sz + 13 (collecting i as a
record start and sz vertex floats); (ii) the single record of size 3 with
absolute coordinates (32, 64, 96), decoded against an identity
trans_to_mni, yields exactly one streamline whose single point is
(1, 2, 3) after the division of every coordinate by 32. -/
theorem parse_tt_c8 :
    (∀ (ta : TypedArr) (fuel i sz : Nat), i < ta.elemCount →
        readU32LE ta.bytes i = some sz →
        ttScan ta (fuel + 1) i =
          (match ttScan ta fuel (i + sz + 13) with
           | .error e => .error e
           | .ok (ps, nv) => .ok (i :: ps, sz + nv))) ∧
    parse_tt ⟨16, ttBlobC8⟩ mat4id =
      .ok { pts := [.fin 1, .fin 2, .fin 3], offsetPt0 := [0, 1] } := by
  constructor
  · intro ta fuel i sz hi hsz
    simp only [ttScan]
    rw [if_pos hi, hsz]
  · with_unfolding_all decide

/-- Witness for C8's record-advance conjunct at the concrete blob: the
scan at position 0 reads size 3 and resumes at 16. -/
theorem parse_tt_c8_witness :
    ttScan ⟨16, ttBlobC8⟩ 2 0 =
      (match ttScan ⟨16, ttBlobC8⟩ 1 16 with
       | .error e => .error e
       | .ok (ps, nv) => .ok (0 :: ps, 3 + nv)) :=
  parse_tt_c8.1 ⟨16, ttBlobC8⟩ 1 0 3 (by decide) (by decide)

/-- C3 (amended): readTCK, readVTK and the MAT v4 reader behind readTT
reject buffers below their stated minima (20, 20 and 40 bytes) with typed
too-small errors; readTRK has no such check — on a TRAC-magic buffer
shorter than its 1000-byte header the decode dies on an out-of-bounds
DataView read (a RangeError), not a typed truncation error. -/
theorem truncation_c3_amended :
    (∀ b : List Nat, b.length < 20 → readTCK b = .error .tckTooSmall) ∧
    (∀ b : List Nat, b.length < 20 → readVTK b = .error .vtkTooSmall) ∧
    (∀ b : List Nat, b.length < 40 → readTT b = .error .matTooSmall) ∧
    (∀ b : List Nat, readU32LE b 0 = some 1128354388 → b.length < 1000 →
      readTRK b = .error .rangeError) := by
  refine ⟨?_, ?_, ?_, readTRK_short⟩
  · intro b h
    unfold readTCK
    rw [if_pos h]
  · intro b h
    unfold readVTK
    rw [if_pos h]
  · intro b h
    have h1 : readMatV4 b = .error .matTooSmall := by
      unfold readMatV4
      rw [if_pos h]
    unfold readTT
    rw [h1]
    rfl

/-- Witness for the amended C3 theorem at concrete short buffers. -/
theorem truncation_c3_witness :
    readTCK [] = .error .tckTooSmall ∧ readVTK [] = .error .vtkTooSmall ∧
    readTT [] = .error .matTooSmall ∧
    readTRK (u32le 1128354388) = .error .rangeError :=
  ⟨truncation_c3_amended.1 [] (by decide),
   truncation_c3_amended.2.1 [] (by decide),
   truncation_c3_amended.2.2.1 [] (by decide),
   truncation_c3_amended.2.2.2 (u32le 1128354388) (by decide) (by decide)⟩

end TrxJs
